import Mathlib

/-
Verification of the WiX installer-manifest generator
(packages/windows-redux/package.py).

The Python source is shallowly embedded as follows.

* Python dicts become association lists (newest binding first, so an
  insert shadows older bindings exactly as a dict assignment overwrites).
* The mutable `xml.etree.ElementTree` element tree becomes an
  append-only store of `Elem` records indexed by position; a node keeps
  the indices of its children, so shared mutable references (for example
  `self.menu_component`, mutated during every group scan) are faithfully
  represented by indices into the store.
* `uuid.uuid4()` draws from an ambient supply `g : Nat -> String`
  indexed by a counter in the state: the embedding is parametric in the
  randomness, which is the only effect of `uuid4` the code relies on.
* `re.match(expr, path)` is embedded by a small regular-expression
  matcher over an abstract syntax tree `Rgx` covering the constructs the
  configuration uses (literal characters, any-character dot,
  alternation, concatenation, star, the end anchor).  `re.match`
  anchors the pattern at position zero and succeeds when some prefix of
  the string matches; `remainders` computes the set of suffixes left
  after such a prefix match, and the relation `Der` is its proved
  specification.  Parsing of the textual pattern syntax is out of scope:
  patterns enter the embedding already as trees.
* `os.path.split` / `os.path.join` (ntpath, as the script targets
  Windows) are embedded for drive-less paths: a separator is a backslash
  or a forward slash, `split` cuts at the last separator and strips
  trailing separators from the head unless the head is all separators,
  `join` inserts a backslash unless the left part is empty or already
  ends with a separator.
* `os.walk(root)` is an input of the embedding: a list of
  (directory, files) pairs, one per visited directory, so theorems
  quantify over every possible set of files present on disk.
* File writes in `save` are modelled as the list of (name, content)
  pairs written, in order, together with an optional error: under
  Python 2 `pretty.encode('utf-8')` on the byte string returned by
  `toprettyxml(encoding='utf-8')` first decodes it as ASCII and raises
  `UnicodeDecodeError` whenever the document holds a non-ASCII
  character, after the registry file has already been written and
  closed.
-/

/-! ## Association lists (Python dict) -/

/-- Lookup in an association list, newest binding first (dict read). -/
def dlookup {α : Type} (l : List (String × α)) (k : String) : Option α :=
  match l with
  | [] => none
  | (k2, v) :: rest => if k2 = k then some v else dlookup rest k

/-- Insertion into an association list (dict assignment): the new
binding is put in front, shadowing any older binding of the key. -/
def dinsert {α : Type} (l : List (String × α)) (k : String) (v : α) :
    List (String × α) :=
  (k, v) :: l

/-! ## Regular expressions: the fragment of Python re used by ignore patterns -/

/-- Abstract syntax of the regular-expression fragment: epsilon, the
any-character dot (which does not match a newline), the end anchor
(dollar, matching at the end of the string or just before a final
newline), a literal character, alternation, concatenation, star. -/
inductive Rgx : Type where
  | eps
  | dot
  | eos
  | chr (c : Char)
  | alt (a b : Rgx)
  | cat (a b : Rgx)
  | star (a : Rgx)
deriving DecidableEq, Repr

/-- Iterated matching for star: given the one-step suffix function `f`,
collect every suffix reachable by repeatedly consuming a non-empty
prefix, `fuel` bounding the number of steps.  Each step consumes at
least one character, so fuel equal to the string length is enough
(`starIter_fuel_le` below); the bound only makes the recursion
structural. -/
def starIter (f : List Char → List (List Char)) : Nat → List Char → List (List Char)
  | 0, s => [s]
  | fuel+1, s =>
    s :: ((f s).filter (fun t => t.length < s.length)).flatMap (fun t => starIter f fuel t)

/-- Suffixes of `s` left after the pattern consumes a prefix of `s`.
`re.match` succeeds exactly when this list is non-empty. -/
def remainders : Rgx → List Char → List (List Char)
  | .eps, s => [s]
  | .eos, s => if s = [] ∨ s = ['\n'] then [s] else []
  | .dot, [] => []
  | .dot, c :: t => if c = '\n' then [] else [t]
  | .chr _, [] => []
  | .chr c, a :: t => if a = c then [t] else []
  | .alt a b, s => remainders a s ++ remainders b s
  | .cat a b, s => (remainders a s).flatMap (fun u => remainders b u)
  | .star a, s => starIter (fun u => remainders a u) s.length s

/-- Boolean `re.match(expr, path)`: the pattern, anchored at position
zero, matches some prefix of the string. -/
def reMatch (e : Rgx) (s : String) : Bool :=
  decide (remainders e s.data ≠ [])

/-- Specification of matching: `Der e s t` holds when the pattern `e`,
started at the beginning of `s`, can consume a prefix of `s` and leave
exactly the suffix `t`. -/
inductive Der : Rgx → List Char → List Char → Prop where
  | eps (s : List Char) : Der .eps s s
  | eos_nil : Der .eos [] []
  | eos_nl : Der .eos ['\n'] ['\n']
  | chr (c : Char) (t : List Char) : Der (.chr c) (c :: t) t
  | dot (c : Char) (t : List Char) : c ≠ '\n' → Der .dot (c :: t) t
  | alt_l {a s t : _} (b : Rgx) : Der a s t → Der (.alt a b) s t
  | alt_r {b s t : _} (a : Rgx) : Der b s t → Der (.alt a b) s t
  | cat {a b : Rgx} {s u t : List Char} : Der a s u → Der b u t → Der (.cat a b) s t
  | star_nil (a : Rgx) (s : List Char) : Der (.star a) s s
  | star_cons {a : Rgx} {s u t : List Char} :
      Der a s u → Der (.star a) u t → Der (.star a) s t

/-! ## Paths: ntpath split and join for drive-less paths -/

/-- Windows path separator test: backslash or forward slash. -/
def isSep (c : Char) : Bool :=
  c = '\\' || c = '/'

/-- Core of `os.path.split` on character lists: cut at the last
separator (head keeps it for the moment), then strip the trailing
separators of the head unless the head is empty or all separators. -/
def splitPathL (p : List Char) : List Char × List Char :=
  let r := p.reverse
  let t := r.takeWhile (fun c => !isSep c)
  let h := r.dropWhile (fun c => !isSep c)
  let h2 := if h ≠ [] ∧ ¬(h.all isSep) then h.dropWhile isSep else h
  (h2.reverse, t.reverse)

/-- Embedded `os.path.split` for drive-less paths. -/
def splitPath (p : String) : String × String :=
  let (h, t) := splitPathL p.data
  (⟨h⟩, ⟨t⟩)

/-- Core of `os.path.join` on character lists for a relative right part:
empty left part gives the right part, a left part ending in a separator
is concatenated directly, otherwise a backslash is inserted. -/
def joinPathL (p q : List Char) : List Char :=
  match p.reverse with
  | [] => q
  | c :: _ => if isSep c then p ++ q else p ++ '\\' :: q

/-- Embedded `os.path.join` for drive-less relative paths. -/
def joinPath (p q : String) : String :=
  ⟨joinPathL p.data q.data⟩

/-- Canonical path shapes: empty, a single separator-free non-empty
segment, or a canonical non-empty path extended by a backslash and one
more separator-free non-empty segment. -/
inductive CanonL : List Char → Prop where
  | nil : CanonL []
  | seg (s : List Char) : s ≠ [] → (∀ c ∈ s, isSep c = false) → CanonL s
  | snoc (p s : List Char) : CanonL p → p ≠ [] →
      s ≠ [] → (∀ c ∈ s, isSep c = false) → CanonL (p ++ '\\' :: s)

/-! ## SHA-1 (hashlib.sha1(name).hexdigest()) -/

/-- Truncation to a 32-bit word. -/
def w32 (n : Nat) : Nat :=
  n % 4294967296

/-- Left rotation of a 32-bit word by `b` bits. -/
def rotl32 (b n : Nat) : Nat :=
  w32 ((n <<< b) ||| (n >>> (32 - b)))

/-- Bitwise complement of a 32-bit word. -/
def not32 (n : Nat) : Nat :=
  4294967295 ^^^ n

/-- Big-endian packing of bytes into 32-bit words, four at a time. -/
def toWords : List Nat → List Nat
  | b0 :: b1 :: b2 :: b3 :: rest =>
    (((b0 * 256 + b1) * 256 + b2) * 256 + b3) :: toWords rest
  | _ => []

/-- Message-schedule extension: append `rounds` further words, each the
left rotation by one of the xor of the words 3, 8, 14 and 16 back. -/
def sha1Extend : Nat → List Nat → List Nat
  | 0, ws => ws
  | r+1, ws =>
    let n := ws.length
    sha1Extend r
      (ws ++ [rotl32 1 (ws.getD (n - 3) 0 ^^^ ws.getD (n - 8) 0 ^^^
                        ws.getD (n - 14) 0 ^^^ ws.getD (n - 16) 0)])

/-- One round list pass of the SHA-1 compression function. -/
def sha1Loop : List Nat → Nat → Nat × Nat × Nat × Nat × Nat → Nat × Nat × Nat × Nat × Nat
  | [], _, st => st
  | wv :: rest, i, (a, b, c, d, e) =>
    let f :=
      if i < 20 then (b &&& c) ||| (not32 b &&& d)
      else if i < 40 then b ^^^ c ^^^ d
      else if i < 60 then (b &&& c) ||| (b &&& d) ||| (c &&& d)
      else b ^^^ c ^^^ d
    let k :=
      if i < 20 then 1518500249
      else if i < 40 then 1859775393
      else if i < 60 then 2400959708
      else 3395469782
    let temp := w32 (rotl32 5 a + f + e + k + wv)
    sha1Loop rest (i + 1) (temp, a, rotl32 30 b, c, d)

/-- Split a byte list into 64-byte chunks. -/
def chunks64 (l : List Nat) : List (List Nat) :=
  if h : l = [] then []
  else l.take 64 :: chunks64 (l.drop 64)
termination_by l.length
decreasing_by
  simp only [List.length_drop]
  have : 0 < l.length := List.length_pos.mpr h
  omega

/-- Big-endian 64-bit encoding of the message bit length. -/
def lenBytes (bits : Nat) : List Nat :=
  [bits >>> 56 % 256, bits >>> 48 % 256, bits >>> 40 % 256, bits >>> 32 % 256,
   bits >>> 24 % 256, bits >>> 16 % 256, bits >>> 8 % 256, bits % 256]

/-- SHA-1 padding: a 0x80 byte, zeros to 56 mod 64, the bit length. -/
def sha1Pad (msg : List Nat) : List Nat :=
  msg ++ 128 :: List.replicate ((119 - msg.length % 64) % 64) 0 ++ lenBytes (8 * msg.length)

/-- The five-word SHA-1 state after absorbing the whole padded message. -/
def sha1Words (msg : List Nat) : Nat × Nat × Nat × Nat × Nat :=
  (chunks64 (sha1Pad msg)).foldl
    (fun (h : Nat × Nat × Nat × Nat × Nat) chunk =>
      let (h0, h1, h2, h3, h4) := h
      let ws := sha1Extend 64 (toWords chunk)
      let (a, b, c, d, e) := sha1Loop ws 0 (h0, h1, h2, h3, h4)
      (w32 (h0 + a), w32 (h1 + b), w32 (h2 + c), w32 (h3 + d), w32 (h4 + e)))
    (1732584193, 4023233417, 2562383102, 271733878, 3285377520)

/-- Lowercase hexadecimal digit for a value below 16. -/
def hexChar (n : Nat) : Char :=
  if n < 10 then Char.ofNat (48 + n) else Char.ofNat (87 + n)

/-- The eight hexadecimal characters of a 32-bit word, most significant
first. -/
def wordHex (w : Nat) : List Char :=
  (List.range 8).map (fun i => hexChar (w / 16 ^ (7 - i) % 16))

/-- Embedded `hashlib.sha1(name).hexdigest()`: the forty lowercase
hexadecimal characters of the digest of the UTF-8 bytes of the string. -/
def sha1hex (name : String) : String :=
  let (h0, h1, h2, h3, h4) := sha1Words (name.toUTF8.toList.map (fun b => b.toNat))
  ⟨wordHex h0 ++ wordHex h1 ++ wordHex h2 ++ wordHex h3 ++ wordHex h4⟩


/-! ## The element store and generator state -/

/-- One XML element: its tag, its attributes in creation order, and the
store indices of its children in creation order. -/
structure Elem where
  tag : String
  attrs : List (String × String)
  children : List Nat
deriving DecidableEq, Repr

/-- The empty element, used as the default when an index is read. -/
def noElem : Elem :=
  ⟨"", [], []⟩

/-- One diagnostic record, tagged with the logging level used by the
source (logger.debug / logger.info / logger.warn). -/
inductive LogEntry : Type where
  | debug (msg : String)
  | info (msg : String)
  | warn (msg : String)
deriving DecidableEq, Repr

/-- The whole mutable state of a WixConfig object: the element store
(index 0 is the Wix root), the directory cache `self.dirs`, the logical
directory map `self.logical`, the identifier registry `self.uuids`, the
counter feeding the uuid4 supply, the emitted diagnostics, and the store
indices of `self.feature` and `self.menu_component`. -/
structure WixState where
  nodes : List Elem
  dirs : List (String × Nat)
  logical : List (String × Nat)
  uuids : List (String × String)
  freshCtr : Nat
  log : List LogEntry
  feature : Nat
  menuComponent : Nat
deriving DecidableEq, Repr

/-- Embedded `xml_append( xml_parent, xml_element_type, **attrs )`: a
new element is appended to the store and its index recorded as the last
child of parent index `parent`; the new index and the new state are
returned. -/
def xml_append (parent : Nat) (tag : String) (attrs : List (String × String))
    (s : WixState) : Nat × WixState :=
  let i := s.nodes.length
  let grown := s.nodes ++ [⟨tag, attrs, []⟩]
  let pElem := grown.getD parent noElem
  (i, { s with nodes := grown.set parent { pElem with children := pElem.children ++ [i] } })

namespace WixConfig

/-- Embedded `WixConfig.uuid`: get or create the registry identifier for
a path.  A hit returns the stored value unchanged; a miss draws a fresh
identifier from the supply `g`, logs a warning, stores it and returns
it. -/
def uuid (g : Nat → String) (path : String) (s : WixState) : String × WixState :=
  match dlookup s.uuids path with
  | some v => (v, s)
  | none =>
    let guid := g s.freshCtr
    (guid, { s with
      uuids := dinsert s.uuids path guid,
      freshCtr := s.freshCtr + 1,
      log := s.log ++ [.warn ("Creating new uuid for " ++ path ++ ": " ++ guid)] })

/-- The walk-up phase of `WixConfig.directory`: follow `os.path.split`
upward, pushing each basename, until a cached directory or a split
fixpoint (the root case, answered by logical MailpileClient) is found.
Returns the anchor node, the path at which the walk stopped and the
accumulated stack.  The source loops `while True`; every non-final
iteration strictly shortens the path, so `path.length + 1` rounds always
reach the exit (`findAnchorAux_fuel` below) and the bound only makes the
recursion structural. -/
def findAnchorAux (s : WixState) : Nat → String → List String → Nat × String × List String
  | 0, path, stack =>
    ((dlookup s.logical "MailpileClient").getD 0, path, stack)
  | fuel+1, path, stack =>
    match dlookup s.dirs path with
    | some n => (n, path, stack)
    | none =>
      let parts := splitPath path
      if parts.1 = path then ((dlookup s.logical "MailpileClient").getD 0, path, stack)
      else findAnchorAux s fuel parts.1 (stack ++ [parts.2])

/-- The walk-up phase started with enough fuel for the whole loop. -/
def findAnchor (s : WixState) (path : String) : Nat × String × List String :=
  findAnchorAux s (path.length + 1) path []

/-- Embedded `WixConfig.id_str`: the context tag, an underscore and the
hex digest of the name (the commented-out shortened branch in the
source is dead code). -/
def id_str (use : String) (name : String) : String :=
  use ++ "_" ++ sha1hex name

/-- Embedded `WixConfig.directory_id`. -/
def directory_id (path : String) : String :=
  id_str "Directory" path

/-- Embedded `WixConfig.component_id`. -/
def component_id (name : String) : String :=
  id_str "Component" name

/-- Embedded `WixConfig.file_id`. -/
def file_id (name : String) : String :=
  id_str "File" name

/-- The walk-down phase of `WixConfig.directory`: from the anchor,
re-join each stacked basename, appending one Directory element per step
and caching it in `self.dirs` under the re-joined path. -/
def buildChain : Nat → String → List String → WixState → Nat × WixState
  | parent, _, [], s => (parent, s)
  | parent, path, part :: rest, s =>
    let path2 := joinPath path part
    let r := xml_append parent "Directory"
      [("Id", directory_id path2), ("Name", part)] s
    buildChain r.1 path2 rest { r.2 with dirs := dinsert r.2.dirs path2 r.1 }

/-- Embedded `WixConfig.directory`: get the element for a directory
path, creating and caching the missing part of the chain. -/
def directory (path : String) (s : WixState) : Nat × WixState :=
  let r := findAnchor s path
  buildChain r.1 r.2.1 r.2.2.reverse s

/-- Embedded `WixConfig.mask_path`: the Python slice
`path[ len(mask) + 1: ]`, dropping a fixed number of leading characters
with no check that `path` actually starts with `mask`. -/
def mask_path (mask path : String) : String :=
  ⟨path.data.drop (mask.length + 1)⟩

/-- Embedded `ignore_path` (the local helper in `scan_group`): true when
some configured pattern re-matches the path. -/
def ignore_path (ignore : List Rgx) (path : String) : Bool :=
  ignore.any (fun expr => reMatch expr path)

/-- The body of the file loop in `WixConfig.scan_group`, for one file
name under one walked directory: mask the path; either skip an ignored
file with an info record, or create the Component (with its registry
identifier), its File child, the optional Shortcut on the menu
component, and the ComponentRef under the feature. -/
def processFile (g : Nat → String) (mask : String) (ignore : List Rgx)
    (shortcuts : List (String × List (String × String)))
    (parent fname : String) (s : WixState) : WixState :=
  let local_path := joinPath parent fname
  let path := mask_path mask local_path
  if ignore_path ignore path then
    { s with log := s.log ++ [.info ("Ignoring " ++ path)] }
  else
    let s1 := { s with log := s.log ++ [.debug ("Processing file " ++ path)] }
    let rDir := directory (mask_path mask parent) s1
    let parent_dir := rDir.1
    let s2 := rDir.2
    let cid := component_id path
    let rU := uuid g path s2
    let s3 := rU.2
    let rC := xml_append parent_dir "Component" [("Id", cid), ("Guid", rU.1)] s3
    let comp := rC.1
    let s4 := rC.2
    let s5 := (xml_append comp "File"
      [("Id", file_id path), ("Name", fname), ("DiskId", "1"),
       ("Source", local_path), ("KeyPath", "yes")] s4).2
    let s6 :=
      match dlookup shortcuts path with
      | some sc =>
        let s6a := (xml_append s5.menuComponent "Shortcut"
          (("Target", "[#" ++ file_id path ++ "]") :: sc) s5).2
        { s6a with log := s6a.log ++ [.info ("Created shortcut for " ++ path)] }
      | none => s5
    (xml_append s6.feature "ComponentRef" [("Id", cid)] s6).2

/-- Embedded `WixConfig.scan_group`: mask is the parent of the group
root; every file of every walked directory goes through the file loop.
The group name and group uuid are accepted and unused, as in the
source. -/
def scan_group (g : Nat → String) (_name _uuid root : String) (ignore : List Rgx)
    (shortcuts : List (String × List (String × String)))
    (walk : List (String × List String)) (s : WixState) : WixState :=
  let mask := (splitPath root).1
  walk.foldl (fun sAcc pf =>
    pf.2.foldl (fun sF fname => processFile g mask ignore shortcuts pf.1 fname sF) sAcc) s

end WixConfig

/-! ## Configuration, skeleton construction, run, load and save -/

/-- One configured group of the scan: its (unused) group identifier, its filesystem
root, its exclusion patterns and its shortcuts map. -/
structure ScanGroup where
  uuid : String
  root : String
  ignore : List Rgx
  shortcuts : List (String × List (String × String))

/-- The configuration dictionary fields the generator reads. -/
structure Config where
  product_id : String
  version : String
  manufacturer : String
  languages : String
  codepage : String
  installer_version : String
  product_code : String
  groups : List (String × ScanGroup)

/-- Embedded `WixConfig.logical_node`: append a Directory element under
the logical parent and record it in `self.logical` under its Id
attribute. -/
def WixConfig.logical_node (parentId : String) (attrs : List (String × String))
    (s : WixState) : WixState :=
  let r := xml_append ((dlookup s.logical parentId).getD 0) "Directory" attrs s
  { r.2 with logical := dinsert r.2.logical ((dlookup attrs "Id").getD "") r.1 }

/-- The skeleton phase of `WixConfig.__init__`, after the registry has
been loaded: the Wix root, the Product record and its Package, Media and
Property children, the logical roots and chains, the Feature, the menu
component (whose Guid is the one registry access of the skeleton) with
its RegistryValue and RemoveFolder children, and the menu ComponentRef.
`reg0` is the loaded identifier registry. -/
def WixConfig.skeleton (g : Nat → String) (cfg : Config)
    (reg0 : List (String × String)) : WixState :=
  let s0 : WixState :=
    { nodes := [⟨"Wix", [("xmlns", "http://schemas.microsoft.com/wix/2006/wi")], []⟩],
      dirs := [], logical := [], uuids := reg0, freshCtr := 0, log := [],
      feature := 0, menuComponent := 0 }
  let rP := xml_append 0 "Product"
    [("Name", "Mailpile Email Client " ++ cfg.version),
     ("Language", cfg.languages), ("Codepage", cfg.codepage),
     ("Version", cfg.version), ("Manufacturer", cfg.manufacturer),
     ("Id", cfg.product_id), ("UpgradeCode", cfg.product_code)] s0
  let product := rP.1
  let s1 := rP.2
  let s2 := (xml_append product "Package"
    [("Id", "*"), ("Keywords", "Installer"),
     ("Description", "Mailpile " ++ cfg.version ++ " Installer"),
     ("Comments", "Mailpile is under the AGPL license"),
     ("Manufacturer", cfg.manufacturer),
     ("InstallerVersion", cfg.installer_version), ("Languages", cfg.languages),
     ("Compressed", "yes"), ("SummaryCodepage", cfg.codepage)] s1).2
  let s3 := (xml_append product "Media"
    [("Id", "1"), ("Cabinet", "mailpile.cab"), ("EmbedCab", "yes"),
     ("DiskPrompt", "CD-ROM #1")] s2).2
  let s4 := (xml_append product "Property"
    [("Id", "DiskPrompt"), ("Value", "Mailpile " ++ cfg.version ++ " Media [1]")] s3).2
  let rT := xml_append product "Directory"
    [("Id", "TARGETDIR"), ("Name", "SourceDir")] s4
  let s6 := { rT.2 with logical := dinsert rT.2.logical "TARGETDIR" rT.1 }
  let rF := xml_append product "Feature"
    [("Id", "Complete"), ("Title", "Mailpile " ++ cfg.version),
     ("Description", "Complete Mailpile Install")] s6
  let feature := rF.1
  let s7 := rF.2
  let s8 := WixConfig.logical_node "TARGETDIR"
    [("Id", "ProgramFilesFolder"), ("Name", "ProgramFiles")] s7
  let s9 := WixConfig.logical_node "ProgramFilesFolder"
    [("Id", "MailpileEHF"), ("Name", "Mailpile ehf")] s8
  let s10 := WixConfig.logical_node "MailpileEHF"
    [("Id", "MailpileClient"), ("Name", "Mailpile Client " ++ cfg.version)] s9
  let s11 := WixConfig.logical_node "TARGETDIR" [("Id", "ProgramMenuFolder")] s10
  let s12 := WixConfig.logical_node "ProgramMenuFolder"
    [("Id", "ProgramMenuDir"), ("Name", "Mailpile " ++ cfg.version)] s11
  let rG := WixConfig.uuid g "\\windows\\ProgramMenuDir" s12
  let s13 := rG.2
  let rM := xml_append ((dlookup s13.logical "ProgramMenuDir").getD 0)
    "Component" [("Id", "ProgramMenuDir"), ("Guid", rG.1)] s13
  let menuC := rM.1
  let s15 := (xml_append menuC "RegistryValue"
    [("Root", "HKCU"), ("Key", "Software\\[Manufacturer]\\[ProductName]"),
     ("Type", "string"), ("Value", "1"), ("KeyPath", "yes")] rM.2).2
  let s16 := (xml_append menuC "RemoveFolder"
    [("Id", "ProgramMenuDir"), ("On", "uninstall")] s15).2
  let s17 := (xml_append feature "ComponentRef" [("Id", "ProgramMenuDir")] s16).2
  { s17 with feature := feature, menuComponent := menuC }

/-- A complete run of WixConfig construction over a loaded registry:
the skeleton, then `scan_group` for every configured group.  `fs` models
the filesystem: `fs root` is what `os.walk( root )` yields. -/
def WixConfig.run (g : Nat → String) (cfg : Config) (reg0 : List (String × String))
    (fs : String → List (String × List String)) : WixState :=
  cfg.groups.foldl
    (fun s kg =>
      WixConfig.scan_group g kg.1 kg.2.uuid kg.2.root kg.2.ignore kg.2.shortcuts
        (fs kg.2.root) s)
    (WixConfig.skeleton g cfg reg0)

/-- The `uuids` constructor argument: either a dict, or the name of a
JSON file to read. -/
inductive UuidsArg : Type where
  | dict (d : List (String × String))
  | path (p : String)

/-- Embedded `WixConfig.__init__` including the registry load: a dict
argument is used as is; a file argument is opened and parsed, and a
missing or unreadable file (`readJson` returns none) makes the open
call raise, so construction fails with the propagated error and nothing
is built. -/
def WixConfig.new (g : Nat → String) (cfg : Config) (uuids : UuidsArg)
    (readJson : String → Option (List (String × String)))
    (fs : String → List (String × List String)) : Except String WixState :=
  match uuids with
  | .dict d => .ok (WixConfig.run g cfg d fs)
  | .path p =>
    match readJson p with
    | some d => .ok (WixConfig.run g cfg d fs)
    | none => .error "IOError"

/-! ## Saving -/

/-- Insertion sort of registry entries by key (json.dump sort_keys). -/
def insertSorted (x : String × String) : List (String × String) → List (String × String)
  | [] => [x]
  | y :: ys => if x.1 ≤ y.1 then x :: y :: ys else y :: insertSorted x ys

/-- Key-sorted JSON text of the registry.  The exact text is irrelevant
to the claims; what matters is that the whole registry is serialized. -/
def jsonDumpUuids (uuids : List (String × String)) : String :=
  let sorted := (uuids.map (fun kv => kv.1 ++ ": " ++ kv.2)).foldr
    (fun line acc => line :: acc) []
  String.intercalate ", " sorted

/-- Attribute text of an element. -/
def attrsText (attrs : List (String × String)) : String :=
  (attrs.map (fun kv => " " ++ kv.1 ++ "=" ++ kv.2)).foldr (fun a b => a ++ b) ""

/-- Serialized text of the element at an index, children inside; `fuel`
bounds the depth (a child index always exceeds its parent index in every
reachable store, so fuel equal to the store size is enough).  The exact
text is irrelevant to the claims; what matters for save is whether any
non-ASCII character occurs in it. -/
def printElem (nodes : List Elem) : Nat → Nat → String
  | 0, _ => ""
  | fuel+1, i =>
    let e := nodes.getD i noElem
    "<" ++ e.tag ++ attrsText e.attrs ++ ">" ++
      (e.children.map (fun c => printElem nodes fuel c)).foldr (fun a b => a ++ b) "" ++
      "</" ++ e.tag ++ ">"

/-- Python 2 `pretty.encode( 'utf-8' )` on a byte string: an implicit
ASCII decode that raises UnicodeDecodeError on any non-ASCII byte. -/
def encodeAscii (s : String) : Except String String :=
  if s.data.all (fun c => c.toNat < 128) then .ok s else .error "UnicodeDecodeError"

/-- Embedded `WixConfig.save`: the writes performed, in order, and the
error if one is raised.  The registry JSON is written and closed first;
then the tree is serialized and the Python 2 encode step either yields
the manifest write or raises, leaving only the registry write done. -/
def WixConfig.save (s : WixState) (path : String) : List (String × String) × Option String :=
  let regWrite := (path ++ ".uuid.json", jsonDumpUuids s.uuids)
  let pretty := printElem s.nodes s.nodes.length 0
  match encodeAscii pretty with
  | .ok out => ([regWrite, (path ++ ".wxs", out)], none)
  | .error e => ([regWrite], some e)

/-! ## Observation helpers for the theorems -/

/-- The tags of the element store, in creation order. -/
def tags (s : WixState) : List String :=
  s.nodes.map (fun e => e.tag)

/-- The attribute lists of the children of node `i` bearing a tag, in
child order (children are observed through their tag and attributes
only, which never change once a node is created). -/
def taggedChildAttrs (s : WixState) (i : Nat) (tag : String) :
    List (List (String × String)) :=
  (((s.nodes.getD i noElem).children.map (fun c =>
      ((s.nodes.getD c noElem).tag, (s.nodes.getD c noElem).attrs))).filter
    (fun tv => tv.1 = tag)).map (fun tv => tv.2)

/-! ## Concrete instances for counterexamples and witnesses -/

/-- A concrete deterministic identifier supply standing in for the
stream of uuid4 draws. -/
def gSupply : Nat → String :=
  fun n => "guid-" ++ toString n

/-- A minimal configuration with no groups. -/
def cfgEmpty : Config :=
  { product_id := "pid", version := "0.0.0", manufacturer := "m",
    languages := "1033", codepage := "1252", installer_version := "100",
    product_code := "pc", groups := [] }

/-- A minimal state holding only the Wix root and the MailpileClient
logical node, with an empty directory cache. -/
def cexState : WixState :=
  { nodes := [⟨"Wix", [], [1]⟩, ⟨"Directory", [("Id", "MailpileClient")], []⟩],
    dirs := [], logical := [("MailpileClient", 1)], uuids := [], freshCtr := 0,
    log := [], feature := 0, menuComponent := 0 }

/-- A state whose element tree holds a non-ASCII attribute value, as
happens whenever a scanned file name holds a non-ASCII character. -/
def badSaveState : WixState :=
  { nodes := [⟨"Wix", [("Name", "é")], []⟩],
    dirs := [], logical := [], uuids := [("p", "v")], freshCtr := 0,
    log := [], feature := 0, menuComponent := 0 }

/-- Bindings visible in the first registry stay visible, unaltered, in
the second. -/
def regPreserved (r r2 : List (String × String)) : Prop :=
  ∀ k v, dlookup r k = some v → dlookup r2 k = some v

/-! ## Helper lemmas -/

theorem dlookup_dinsert_self {α : Type} (l : List (String × α)) (k : String) (v : α) :
    dlookup (dinsert l k v) k = some v := by
  simp [dlookup, dinsert]

theorem dlookup_dinsert_ne {α : Type} (l : List (String × α)) (k k2 : String) (v : α)
    (h : k ≠ k2) : dlookup (dinsert l k v) k2 = dlookup l k2 := by
  simp [dlookup, dinsert, h]

/-- A derivation only ever consumes from the front: the remainder is a
suffix of the input. -/
theorem Der.exists_split {e : Rgx} {s t : List Char} (h : Der e s t) :
    ∃ p, s = p ++ t := by
  induction h with
  | eps s => exact ⟨[], rfl⟩
  | eos_nil => exact ⟨[], rfl⟩
  | eos_nl => exact ⟨[], rfl⟩
  | chr c t => exact ⟨[c], rfl⟩
  | dot c t _ => exact ⟨[c], rfl⟩
  | alt_l _ _ ih => exact ih
  | alt_r _ _ ih => exact ih
  | cat _ _ ih1 ih2 =>
    obtain ⟨p1, rfl⟩ := ih1
    obtain ⟨p2, rfl⟩ := ih2
    exact ⟨p1 ++ p2, by simp⟩
  | star_nil a s => exact ⟨[], rfl⟩
  | star_cons _ _ ih1 ih2 =>
    obtain ⟨p1, rfl⟩ := ih1
    obtain ⟨p2, rfl⟩ := ih2
    exact ⟨p1 ++ p2, by simp⟩

theorem starIter_sound {a : Rgx}
    (hf : ∀ s t, t ∈ remainders a s → Der a s t) :
    ∀ (fuel : Nat) (s t : List Char), t ∈ starIter (fun u => remainders a u) fuel s →
      Der (.star a) s t := by
  intro fuel
  induction fuel with
  | zero =>
    intro s t ht
    simp only [starIter, List.mem_singleton] at ht
    exact ht ▸ Der.star_nil a s
  | succ n ih =>
    intro s t ht
    simp only [starIter, List.mem_cons, List.mem_flatMap, List.mem_filter] at ht
    rcases ht with rfl | ⟨u, ⟨hu, _⟩, htu⟩
    · exact Der.star_nil a _
    · exact Der.star_cons (hf s u hu) (ih u t htu)

/-- Soundness of the matcher: every computed remainder is derivable. -/
theorem remainders_sound {e : Rgx} {s t : List Char}
    (h : t ∈ remainders e s) : Der e s t := by
  induction e generalizing s t with
  | eps =>
    simp only [remainders, List.mem_singleton] at h
    exact h ▸ Der.eps s
  | dot =>
    match s with
    | [] => simp [remainders] at h
    | c :: u =>
      simp only [remainders] at h
      by_cases hc : c = '\n'
      · simp [hc] at h
      · simp only [if_neg hc, List.mem_singleton] at h
        exact h ▸ Der.dot c u hc
  | eos =>
    simp only [remainders] at h
    by_cases hs : s = [] ∨ s = ['\n']
    · simp only [if_pos hs, List.mem_singleton] at h
      subst h
      rcases hs with rfl | rfl
      · exact Der.eos_nil
      · exact Der.eos_nl
    · simp [if_neg hs] at h
  | chr c =>
    match s with
    | [] => simp [remainders] at h
    | a :: u =>
      simp only [remainders] at h
      by_cases hc : a = c
      · simp only [if_pos hc, List.mem_singleton] at h
        subst hc
        exact h ▸ Der.chr a u
      · simp [if_neg hc] at h
  | alt a b iha ihb =>
    simp only [remainders, List.mem_append] at h
    rcases h with h | h
    · exact Der.alt_l b (iha h)
    · exact Der.alt_r a (ihb h)
  | cat a b iha ihb =>
    simp only [remainders, List.mem_flatMap] at h
    obtain ⟨u, hu, ht⟩ := h
    exact Der.cat (iha hu) (ihb ht)
  | star a iha =>
    exact starIter_sound (fun s2 t2 ht => iha ht) s.length s t h

/-- More fuel keeps every reachable remainder. -/
theorem starIter_fuel_le (f : List Char → List (List Char)) :
    ∀ (f1 f2 : Nat) (s t : List Char), f1 ≤ f2 →
      t ∈ starIter f f1 s → t ∈ starIter f f2 s := by
  intro f1
  induction f1 with
  | zero =>
    intro f2 s t _ ht
    simp only [starIter, List.mem_singleton] at ht
    subst ht
    cases f2 with
    | zero => simp [starIter]
    | succ n => simp [starIter]
  | succ n ih =>
    intro f2 s t h12 ht
    cases f2 with
    | zero => omega
    | succ m =>
      simp only [starIter, List.mem_cons, List.mem_flatMap] at ht ⊢
      rcases ht with rfl | ⟨u, hu, htu⟩
      · exact Or.inl rfl
      · exact Or.inr ⟨u, hu, ih m u t (by omega) htu⟩

/-- Completeness of the matcher: every derivable remainder is computed. -/
theorem remainders_complete {e : Rgx} {s t : List Char}
    (h : Der e s t) : t ∈ remainders e s := by
  induction h with
  | eps s => simp [remainders]
  | eos_nil => simp [remainders]
  | eos_nl => simp [remainders]
  | chr c t => simp [remainders]
  | dot c t hc => simp [remainders, hc]
  | alt_l b _ ih => simp only [remainders, List.mem_append]; exact Or.inl ih
  | alt_r a _ ih => simp only [remainders, List.mem_append]; exact Or.inr ih
  | cat h1 h2 ih1 ih2 =>
    simp only [remainders, List.mem_flatMap]
    exact ⟨_, ih1, ih2⟩
  | star_nil a s =>
    rcases s with _ | ⟨c, u⟩
    · simp [remainders, starIter]
    · simp [remainders, starIter]
  | star_cons h1 h2 ih1 ih2 =>
    rename_i a s u t
    simp only [remainders] at ih2 ⊢
    obtain ⟨p, rfl⟩ := h1.exists_split
    rcases p with _ | ⟨c, q⟩
    · simpa using ih2
    · rw [show (c :: q ++ u).length = (q ++ u).length + 1 from by simp]
      simp only [starIter, List.mem_cons, List.mem_flatMap, List.mem_filter]
      refine Or.inr ⟨u, ⟨ih1, by simp only [decide_eq_true_eq, List.length_cons, List.length_append]; omega⟩, ?_⟩
      exact starIter_fuel_le _ u.length (q ++ u).length u t (by simp) ih2

/-- The matcher decides exactly the anchored-prefix relation. -/
theorem reMatch_iff (e : Rgx) (s : String) :
    reMatch e s = true ↔ ∃ pre suf, s.data = pre ++ suf ∧ Der e s.data suf := by
  constructor
  · intro h
    simp only [reMatch, decide_eq_true_eq] at h
    obtain ⟨t, ht⟩ := List.exists_mem_of_ne_nil _ h
    have hd := remainders_sound ht
    obtain ⟨p, hp⟩ := hd.exists_split
    exact ⟨p, t, hp, hd⟩
  · rintro ⟨pre, suf, hsplit, hd⟩
    simp only [reMatch, decide_eq_true_eq]
    intro hnil
    have := remainders_complete hd
    simp [hnil] at this


theorem hexChar_good (m : Nat) (h : m < 16) :
    (hexChar m).isDigit = true ∨ (hexChar m).isAlpha = true := by
  interval_cases m <;> simp [hexChar]

theorem wordHex_mem {w : Nat} : ∀ c ∈ wordHex w, c.isDigit = true ∨ c.isAlpha = true := by
  intro c hc
  simp only [wordHex, List.mem_map, List.mem_range] at hc
  obtain ⟨i, _, rfl⟩ := hc
  exact hexChar_good _ (Nat.mod_lt _ (by norm_num))

theorem wordHex_length (w : Nat) : (wordHex w).length = 8 := by
  simp [wordHex]

theorem sha1hex_spec (name : String) :
    (sha1hex name).data.length = 40 ∧
    ∀ c ∈ (sha1hex name).data, c.isDigit = true ∨ c.isAlpha = true := by
  obtain ⟨a, b, c, d, e, hw⟩ :
      ∃ a b c d e, sha1Words (name.toUTF8.toList.map (fun x => x.toNat)) = (a, b, c, d, e) :=
    ⟨_, _, _, _, _, rfl⟩
  have hdata : (sha1hex name).data =
      wordHex a ++ wordHex b ++ wordHex c ++ wordHex d ++ wordHex e := by
    simp only [sha1hex, hw]
  constructor
  · simp [hdata, wordHex_length]
  · intro ch hch
    rw [hdata] at hch
    simp only [List.mem_append] at hch
    rcases hch with ((((h | h) | h) | h) | h) <;> exact wordHex_mem ch h

/-! ## Claim C4: mangled identifiers are legal -/

/-- C4.  For every context among Directory, Component and File and every
name, the token produced by id_str (and its wrappers directory_id,
component_id and file_id, which are id_str at those contexts) begins
with a letter or underscore, contains only letters, digits, underscore
and period, and is at most 72 characters long. -/
theorem id_str_legal (use name : String)
    (h : use = "Directory" ∨ use = "Component" ∨ use = "File") :
    (∃ c rest, (WixConfig.id_str use name).data = c :: rest ∧ (c.isAlpha = true ∨ c = '_')) ∧
    (∀ c ∈ (WixConfig.id_str use name).data,
      c.isAlpha = true ∨ c.isDigit = true ∨ c = '_' ∨ c = '.') ∧
    (WixConfig.id_str use name).length ≤ 72 ∧
    WixConfig.directory_id name = WixConfig.id_str "Directory" name ∧
    WixConfig.component_id name = WixConfig.id_str "Component" name ∧
    WixConfig.file_id name = WixConfig.id_str "File" name := by
  obtain ⟨hlen, hchars⟩ := sha1hex_spec name
  have hdata : (WixConfig.id_str use name).data =
      use.data ++ '_' :: (sha1hex name).data := by
    simp [WixConfig.id_str, String.data_append]
  have hmain : ∀ c ∈ (WixConfig.id_str use name).data,
      c ∈ use.data ∨ c = '_' ∨ c.isDigit = true ∨ c.isAlpha = true := by
    intro c hc
    rw [hdata] at hc
    simp only [List.mem_append, List.mem_cons] at hc
    rcases hc with h1 | h1 | h1
    · exact Or.inl h1
    · exact Or.inr (Or.inl h1)
    · rcases hchars c h1 with h2 | h2
      · exact Or.inr (Or.inr (Or.inl h2))
      · exact Or.inr (Or.inr (Or.inr h2))
  have hlength : (WixConfig.id_str use name).length = use.data.length + 41 := by
    show (WixConfig.id_str use name).data.length = use.data.length + 41
    rw [hdata]
    simp [hlen]
  refine ⟨?_, ?_, ?_, rfl, rfl, rfl⟩
  · rcases h with rfl | rfl | rfl
    · exact ⟨'D', _, by rw [hdata]; rfl, Or.inl (by decide)⟩
    · exact ⟨'C', _, by rw [hdata]; rfl, Or.inl (by decide)⟩
    · exact ⟨'F', _, by rw [hdata]; rfl, Or.inl (by decide)⟩
  · intro c hc
    rcases hmain c hc with h1 | h1 | h1 | h1
    · rcases h with rfl | rfl | rfl
      · have : ∀ c2 ∈ "Directory".data, c2.isAlpha = true := by decide
        exact Or.inl (this c h1)
      · have : ∀ c2 ∈ "Component".data, c2.isAlpha = true := by decide
        exact Or.inl (this c h1)
      · have : ∀ c2 ∈ "File".data, c2.isAlpha = true := by decide
        exact Or.inl (this c h1)
    · exact Or.inr (Or.inr (Or.inl h1))
    · exact Or.inr (Or.inl h1)
    · exact Or.inl h1
  · rw [hlength]
    rcases h with rfl | rfl | rfl <;> simp

/-! ## Claim C10: mask_path is an unvalidated fixed-length slice -/

/-- C10.  For every mask and path, mask_path returns path with exactly
its first len(mask)+1 characters removed, empty when the path is not
longer than that, with no hypothesis that path starts with mask. -/
theorem mask_path_fixed_slice (mask path : String) :
    (WixConfig.mask_path mask path).data = path.data.drop (mask.length + 1) ∧
    path.data.take (mask.length + 1) ++ (WixConfig.mask_path mask path).data = path.data ∧
    (path.length ≤ mask.length + 1 → WixConfig.mask_path mask path = "") := by
  refine ⟨rfl, ?_, ?_⟩
  · show path.data.take (mask.length + 1) ++ path.data.drop (mask.length + 1) = path.data
    exact List.take_append_drop _ _
  · intro h
    show String.mk (path.data.drop (mask.length + 1)) = ""
    rw [List.drop_eq_nil_of_le h]

/-! ## Claim C2: the registry get-or-create is idempotent -/

/-- C2.  If the path is already a registry key, uuid returns the stored
value and leaves the state untouched; otherwise it returns a freshly
drawn identifier, stores it under the path, appends a warning record,
and any later call with the same path returns that same identifier with
no further change. -/
theorem uuid_get_or_create (g g2 : Nat → String) (path : String) (s : WixState) :
    (∀ v, dlookup s.uuids path = some v → WixConfig.uuid g path s = (v, s)) ∧
    (dlookup s.uuids path = none →
      (WixConfig.uuid g path s).1 = g s.freshCtr ∧
      dlookup (WixConfig.uuid g path s).2.uuids path = some (g s.freshCtr) ∧
      (WixConfig.uuid g path s).2.log = s.log ++
        [LogEntry.warn ("Creating new uuid for " ++ path ++ ": " ++ g s.freshCtr)] ∧
      WixConfig.uuid g2 path (WixConfig.uuid g path s).2 =
        (g s.freshCtr, (WixConfig.uuid g path s).2)) := by
  constructor
  · intro v hv
    simp [WixConfig.uuid, hv]
  · intro hnone
    have h1 : WixConfig.uuid g path s =
        (g s.freshCtr, { s with
          uuids := dinsert s.uuids path (g s.freshCtr),
          freshCtr := s.freshCtr + 1,
          log := s.log ++ [.warn ("Creating new uuid for " ++ path ++ ": " ++ g s.freshCtr)] }) := by
      simp [WixConfig.uuid, hnone]
    refine ⟨by rw [h1], ?_, by rw [h1], ?_⟩
    · rw [h1]
      exact dlookup_dinsert_self _ _ _
    · rw [h1]
      simp [WixConfig.uuid, dlookup_dinsert_self]

/-! ## Claim C9: exclusion patterns are anchored at position zero -/

/-- C9.  A path is excluded if and only if some configured pattern has a
derivation consuming a prefix of the path that starts at position zero;
a pattern that only matches strictly inside the path gives no
derivation from the whole path and so does not exclude it. -/
theorem ignore_path_anchored (ignore : List Rgx) (path : String) :
    WixConfig.ignore_path ignore path = true ↔
      ∃ e ∈ ignore, ∃ pre suf, path.data = pre ++ suf ∧ Der e path.data suf := by
  simp only [WixConfig.ignore_path, List.any_eq_true]
  constructor
  · rintro ⟨e, he, hm⟩
    obtain ⟨pre, suf, hsplit, hd⟩ := (reMatch_iff e path).mp hm
    exact ⟨e, he, pre, suf, hsplit, hd⟩
  · rintro ⟨e, he, pre, suf, hsplit, hd⟩
    exact ⟨e, he, (reMatch_iff e path).mpr ⟨pre, suf, hsplit, hd⟩⟩

/-! ## Claim C6: registry load on a missing or unreadable backing store -/

/-- C6 counterexample.  With a missing registry file the constructor
does not start with an empty registry: it fails outright (the open call
raises), so the claimed conjunction (registry starts empty and
construction does not fail) is false at this input. -/
theorem registry_load_missing_counterexample :
    WixConfig.new gSupply cfgEmpty (UuidsArg.path "mailpile.uuid.json")
      (fun _ => none) (fun _ => []) = Except.error "IOError" := by
  rfl

/-- C6 amended.  A missing or unreadable registry file makes
construction fail with the propagated load error, so the condition is
surfaced as a fatal error and never as a silent empty registry;
construction succeeds exactly when the argument is a dict or the file is
readable, and then the loaded entries are used as the registry. -/
theorem registry_load_surfaced (g : Nat → String) (cfg : Config)
    (readJson : String → Option (List (String × String)))
    (fs : String → List (String × List String)) (p : String) :
    (readJson p = none →
      WixConfig.new g cfg (UuidsArg.path p) readJson fs = Except.error "IOError") ∧
    (∀ d, readJson p = some d →
      WixConfig.new g cfg (UuidsArg.path p) readJson fs =
        Except.ok (WixConfig.run g cfg d fs)) ∧
    (∀ d, WixConfig.new g cfg (UuidsArg.dict d) readJson fs =
      Except.ok (WixConfig.run g cfg d fs)) := by
  refine ⟨?_, ?_, fun d => rfl⟩
  · intro h
    simp [WixConfig.new, h]
  · intro d h
    simp [WixConfig.new, h]

/-! ## Claim C7: save and partial output -/

/-- C7 counterexample.  At a state whose tree holds a non-ASCII
character, save writes the full registry file and then raises in the
manifest encoding step: the registry is on disk and the manifest is
not, so the all-or-nothing claim is false at this input. -/
theorem save_partial_output_counterexample :
    (WixConfig.save badSaveState "mailpile").1.map Prod.fst = ["mailpile.uuid.json"] ∧
    (WixConfig.save badSaveState "mailpile").2 = some "UnicodeDecodeError" := by
  constructor <;> rfl

/-- C7 amended.  Save always writes the full registry file first; the
manifest is written second and only when the serialization encode step
succeeds, so a manifest failure leaves the registry written alone and a
success writes exactly the two files. -/
theorem save_registry_first (s : WixState) (path : String) :
    (WixConfig.save s path).1.head? =
      some (path ++ ".uuid.json", jsonDumpUuids s.uuids) ∧
    ((WixConfig.save s path).2 = none ↔ (WixConfig.save s path).1.map Prod.fst =
      [path ++ ".uuid.json", path ++ ".wxs"]) ∧
    ((WixConfig.save s path).2 ≠ none → (WixConfig.save s path).1.map Prod.fst =
      [path ++ ".uuid.json"]) := by
  have hne : path ++ ".uuid.json" ≠ path ++ ".wxs" := by
    intro h
    have h2 := congrArg String.length h
    rw [String.length_append, String.length_append] at h2
    have h3 : (".uuid.json" : String).length = 10 := rfl
    have h4 : (".wxs" : String).length = 4 := rfl
    omega
  unfold WixConfig.save
  cases h : encodeAscii (printElem s.nodes s.nodes.length 0) with
  | ok out => simp [h]
  | error e => simp [h, hne]

/-! ## Claim C1: the archival invariant of the registry over a whole run -/

theorem regPreserved_trans {a b c : List (String × String)}
    (h1 : regPreserved a b) (h2 : regPreserved b c) : regPreserved a c :=
  fun k v h => h2 k v (h1 k v h)

theorem xml_append_uuids (parent : Nat) (tag : String)
    (attrs : List (String × String)) (s : WixState) :
    (xml_append parent tag attrs s).2.uuids = s.uuids :=
  rfl

theorem uuid_regPreserved (g : Nat → String) (p : String) (s : WixState) :
    regPreserved s.uuids (WixConfig.uuid g p s).2.uuids := by
  intro k v h
  unfold WixConfig.uuid
  cases hl : dlookup s.uuids p with
  | some w => exact h
  | none =>
    have hk : p ≠ k := by
      intro he
      rw [he] at hl
      rw [hl] at h
      cases h
    show dlookup (dinsert s.uuids p (g s.freshCtr)) k = some v
    rw [dlookup_dinsert_ne _ _ _ _ hk]
    exact h

theorem buildChain_uuids :
    ∀ (parts : List String) (parent : Nat) (path : String) (s : WixState),
      (WixConfig.buildChain parent path parts s).2.uuids = s.uuids := by
  intro parts
  induction parts with
  | nil => intro parent path s; rfl
  | cons part rest ih =>
    intro parent path s
    unfold WixConfig.buildChain
    rw [ih]
    rfl

theorem directory_uuids (p : String) (s : WixState) :
    (WixConfig.directory p s).2.uuids = s.uuids := by
  unfold WixConfig.directory
  rw [buildChain_uuids]

theorem processFile_regPreserved (g : Nat → String) (mask : String)
    (ignore : List Rgx) (shortcuts : List (String × List (String × String)))
    (parent fname : String) (s : WixState) :
    regPreserved s.uuids
      (WixConfig.processFile g mask ignore shortcuts parent fname s).uuids := by
  simp only [WixConfig.processFile]
  split
  · exact fun k v h => h
  · simp only [xml_append_uuids]
    cases hsc : dlookup shortcuts (WixConfig.mask_path mask (joinPath parent fname)) with
    | some sc =>
      simp only [hsc, xml_append_uuids]
      have h2 := uuid_regPreserved g (WixConfig.mask_path mask (joinPath parent fname))
        (WixConfig.directory (WixConfig.mask_path mask parent)
          { s with log := s.log ++ [.debug ("Processing file " ++
            WixConfig.mask_path mask (joinPath parent fname))] }).2
      rw [directory_uuids] at h2
      exact h2
    | none =>
      simp only [hsc, xml_append_uuids]
      have h2 := uuid_regPreserved g (WixConfig.mask_path mask (joinPath parent fname))
        (WixConfig.directory (WixConfig.mask_path mask parent)
          { s with log := s.log ++ [.debug ("Processing file " ++
            WixConfig.mask_path mask (joinPath parent fname))] }).2
      rw [directory_uuids] at h2
      exact h2

theorem foldl_regPreserved {β : Type} (f : WixState → β → WixState)
    (hf : ∀ s b, regPreserved s.uuids (f s b).uuids) :
    ∀ (l : List β) (s : WixState), regPreserved s.uuids (l.foldl f s).uuids := by
  intro l
  induction l with
  | nil => intro s; exact fun k v h => h
  | cons b rest ih =>
    intro s
    exact regPreserved_trans (hf s b) (ih (f s b))

theorem scan_group_regPreserved (g : Nat → String) (name guuid root : String)
    (ignore : List Rgx) (shortcuts : List (String × List (String × String)))
    (walk : List (String × List String)) (s : WixState) :
    regPreserved s.uuids
      (WixConfig.scan_group g name guuid root ignore shortcuts walk s).uuids := by
  simp only [WixConfig.scan_group]
  exact foldl_regPreserved
    (fun sAcc pf => pf.2.foldl
      (fun sF fname =>
        WixConfig.processFile g (splitPath root).1 ignore shortcuts pf.1 fname sF) sAcc)
    (fun s2 pf => foldl_regPreserved
      (fun sF fname =>
        WixConfig.processFile g (splitPath root).1 ignore shortcuts pf.1 fname sF)
      (fun s3 fname => processFile_regPreserved g (splitPath root).1 ignore shortcuts
        pf.1 fname s3)
      pf.2 s2)
    walk s

theorem skeleton_regPreserved (g : Nat → String) (cfg : Config)
    (reg0 : List (String × String)) :
    regPreserved reg0 (WixConfig.skeleton g cfg reg0).uuids := by
  have h : (WixConfig.skeleton g cfg reg0).uuids =
      (WixConfig.uuid g "\\windows\\ProgramMenuDir"
        { nodes := [], dirs := [], logical := [], uuids := reg0, freshCtr := 0,
          log := [], feature := 0, menuComponent := 0 }).2.uuids := by
    cases hl : dlookup reg0 "\\windows\\ProgramMenuDir" <;>
      simp [WixConfig.skeleton, WixConfig.uuid, WixConfig.logical_node, xml_append, hl]
  rw [h]
  exact uuid_regPreserved g "\\windows\\ProgramMenuDir"
    { nodes := [], dirs := [], logical := [], uuids := reg0, freshCtr := 0,
      log := [], feature := 0, menuComponent := 0 }

/-- C1.  For every path that the registry loaded at construction maps
to an identifier, the registry after a complete run (skeleton plus
scan_group over every configured group, over any filesystem content)
still maps that path to the same identifier: entries are only ever
added. -/
theorem run_preserves_registry (g : Nat → String) (cfg : Config)
    (reg0 : List (String × String)) (fs : String → List (String × List String))
    (p id0 : String) (h : dlookup reg0 p = some id0) :
    dlookup (WixConfig.run g cfg reg0 fs).uuids p = some id0 := by
  unfold WixConfig.run
  refine foldl_regPreserved _ ?_ cfg.groups (WixConfig.skeleton g cfg reg0) p id0
    (skeleton_regPreserved g cfg reg0 p id0 h)
  intro s2 kg
  exact scan_group_regPreserved g kg.1 kg.2.uuid kg.2.root kg.2.ignore kg.2.shortcuts
    (fs kg.2.root) s2

/-- C1 witness: a concrete registry entry survives a concrete run. -/
theorem run_preserves_registry_witness :
    dlookup (WixConfig.run gSupply cfgEmpty [("app", "X")] (fun _ => [])).uuids "app" =
      some "X" :=
  run_preserves_registry gSupply cfgEmpty [("app", "X")] (fun _ => []) "app" "X" (by decide)

/-! ## Claim C5: directory node sharing -/

theorem takeWhile_all_true (q : Char → Bool) :
    ∀ (xs : List Char), (∀ x ∈ xs, q x = true) → xs.takeWhile q = xs := by
  intro xs
  induction xs with
  | nil => intro _; rfl
  | cons x rest ih =>
    intro h
    have hx := h x (by simp)
    have hr := ih (fun y hy => h y (by simp [hy]))
    simp [List.takeWhile_cons, hx, hr]

theorem dropWhile_all_true (q : Char → Bool) :
    ∀ (xs : List Char), (∀ x ∈ xs, q x = true) → xs.dropWhile q = [] := by
  intro xs
  induction xs with
  | nil => intro _; rfl
  | cons x rest ih =>
    intro h
    have hx := h x (by simp)
    have hr := ih (fun y hy => h y (by simp [hy]))
    simp [List.dropWhile_cons, hx, hr]

theorem takeWhile_append_stop (q : Char → Bool) (y : Char) (ys : List Char)
    (hy : q y = false) :
    ∀ (xs : List Char), (∀ x ∈ xs, q x = true) →
      (xs ++ y :: ys).takeWhile q = xs := by
  intro xs
  induction xs with
  | nil => intro _; simp [List.takeWhile_cons, hy]
  | cons x rest ih =>
    intro h
    have hx := h x (by simp)
    have hr := ih (fun z hz => h z (by simp [hz]))
    simp [List.cons_append, List.takeWhile_cons, hx, hr]

theorem dropWhile_append_stop (q : Char → Bool) (y : Char) (ys : List Char)
    (hy : q y = false) :
    ∀ (xs : List Char), (∀ x ∈ xs, q x = true) →
      (xs ++ y :: ys).dropWhile q = y :: ys := by
  intro xs
  induction xs with
  | nil => intro _; simp [List.dropWhile_cons, hy]
  | cons x rest ih =>
    intro h
    have hx := h x (by simp)
    have hr := ih (fun z hz => h z (by simp [hz]))
    simp [List.cons_append, List.dropWhile_cons, hx, hr]

theorem CanonL.last_not_sep {d : List Char} (hc : CanonL d) (hne : d ≠ []) :
    ∃ c cs, d.reverse = c :: cs ∧ isSep c = false := by
  cases hc with
  | nil => exact absurd rfl hne
  | seg s hs hall =>
    obtain ⟨c, cs, hrev⟩ : ∃ c cs, d.reverse = c :: cs := by
      cases hr : d.reverse with
      | nil => exact absurd (by simpa using congrArg List.reverse hr) hs
      | cons c cs => exact ⟨c, cs, rfl⟩
    refine ⟨c, cs, hrev, hall c ?_⟩
    have : c ∈ d.reverse := by rw [hrev]; simp
    simpa using this
  | snoc p s hp hpne hsne hall =>
    obtain ⟨c, cs, hrev⟩ : ∃ c cs, s.reverse = c :: cs := by
      cases hr : s.reverse with
      | nil => exact absurd (by simpa using congrArg List.reverse hr) hsne
      | cons c cs => exact ⟨c, cs, rfl⟩
    refine ⟨c, cs ++ '\\' :: p.reverse, ?_, hall c ?_⟩
    · rw [List.reverse_append, List.reverse_cons, hrev]
      simp
    · have : c ∈ s.reverse := by rw [hrev]; simp
      simpa using this

theorem splitPathL_seg (s : List Char) (hall : ∀ c ∈ s, isSep c = false) :
    splitPathL s = ([], s) := by
  have hq : ∀ c ∈ s.reverse, (fun c => !isSep c) c = true := by
    intro c hcm
    simp only [List.mem_reverse] at hcm
    simp [hall c hcm]
  simp only [splitPathL]
  rw [takeWhile_all_true _ _ hq, dropWhile_all_true _ _ hq]
  simp

theorem splitPathL_snoc (p s : List Char) (hp : CanonL p) (hpne : p ≠ [])
    (hsne : s ≠ []) (hall : ∀ c ∈ s, isSep c = false) :
    splitPathL (p ++ '\\' :: s) = (p, s) := by
  have hrev : (p ++ '\\' :: s).reverse = s.reverse ++ '\\' :: p.reverse := by
    rw [List.reverse_append, List.reverse_cons]
    simp
  have hq : ∀ c ∈ s.reverse, (fun c => !isSep c) c = true := by
    intro c hcm
    simp only [List.mem_reverse] at hcm
    simp [hall c hcm]
  have hbs : (fun c => !isSep c) '\\' = false := by decide
  obtain ⟨lc, lcs, hlast, hlcs⟩ := hp.last_not_sep hpne
  simp only [splitPathL, hrev]
  rw [takeWhile_append_stop _ _ _ hbs _ hq, dropWhile_append_stop _ _ _ hbs _ hq]
  have hnall : (('\\' :: p.reverse).all isSep) = false := by
    simp only [List.all_cons, Bool.and_eq_false_iff]
    right
    rw [List.all_eq_false]
    refine ⟨lc, ?_, by simp [hlcs]⟩
    rw [hlast]
    simp
  rw [if_pos ⟨by simp, by simp [hnall]⟩]
  have hdrop : ('\\' :: p.reverse).dropWhile isSep = p.reverse := by
    rw [List.dropWhile_cons]
    simp only [show isSep '\\' = true from by decide, if_pos]
    rw [hlast, List.dropWhile_cons, hlcs]
    simp
  rw [hdrop]
  simp

theorem joinPathL_last_not_sep (p q : List Char) (c : Char) (cs : List Char)
    (hrev : p.reverse = c :: cs) (hc : isSep c = false) :
    joinPathL p q = p ++ '\\' :: q := by
  simp only [joinPathL, hrev, hc]
  simp

/-- Split and re-join of a non-empty canonical path: the head is a
strictly shorter canonical path, the split is not a fixpoint, and
joining gives back the path. -/
theorem canon_splitL (d : List Char) (hc : CanonL d) (hne : d ≠ []) :
    (splitPathL d).1 ≠ d ∧ (splitPathL d).1.length < d.length ∧
    CanonL (splitPathL d).1 ∧ joinPathL (splitPathL d).1 (splitPathL d).2 = d := by
  cases hc with
  | nil => exact absurd rfl hne
  | seg s hs hall =>
    rw [splitPathL_seg d hall]
    refine ⟨fun h => hs h.symm, ?_, CanonL.nil, rfl⟩
    simpa [List.length_pos] using hs
  | snoc p s hp hpne hsne hall =>
    rw [splitPathL_snoc p s hp hpne hsne hall]
    obtain ⟨lc, lcs, hlast, hlcs⟩ := hp.last_not_sep hpne
    refine ⟨?_, by simp, hp, joinPathL_last_not_sep p s lc lcs hlast hlcs⟩
    intro h
    have := congrArg List.length h
    simp at this

theorem str_eq_of_data_eq {a b : String} (h : a.data = b.data) : a = b := by
  cases a
  cases b
  exact congrArg String.mk h

/-- String form of canon_splitL. -/
theorem canon_split (p : String) (hc : CanonL p.data) (hne : p ≠ "") :
    (splitPath p).1 ≠ p ∧ (splitPath p).1.length < p.length ∧
    CanonL (splitPath p).1.data ∧ joinPath (splitPath p).1 (splitPath p).2 = p := by
  have hdne : p.data ≠ [] := by
    intro h
    exact hne (str_eq_of_data_eq h)
  obtain ⟨h1, h2, h3, h4⟩ := canon_splitL p.data hc hdne
  refine ⟨?_, h2, h3, str_eq_of_data_eq h4⟩
  intro h
  exact h1 (congrArg String.data h)

theorem findAnchorAux_spec (s : WixState) :
    ∀ (fuel : Nat) (path : String) (stack : List String),
      path.length < fuel → CanonL path.data →
      ((WixConfig.findAnchorAux s fuel path stack).2.2.reverse.foldl joinPath
          (WixConfig.findAnchorAux s fuel path stack).2.1 =
        stack.reverse.foldl joinPath path) ∧
      (∃ ex, (WixConfig.findAnchorAux s fuel path stack).2.2 = stack ++ ex) := by
  intro fuel
  induction fuel with
  | zero => intro path stack hf _; omega
  | succ n ih =>
    intro path stack hf hc
    cases hdl : dlookup s.dirs path with
    | some m =>
      simp only [WixConfig.findAnchorAux, hdl]
      exact ⟨trivial, [], by simp⟩
    | none =>
      by_cases hpe : path = ""
      · subst hpe
        have hfix : (splitPath "").1 = "" := by decide
        simp only [WixConfig.findAnchorAux, hdl, hfix, if_pos]
        exact ⟨trivial, [], by simp⟩
      · obtain ⟨h1, h2, h3, h4⟩ := canon_split path hc hpe
        simp only [WixConfig.findAnchorAux, hdl, if_neg h1]
        have hih := ih (splitPath path).1 (stack ++ [(splitPath path).2])
          (by omega) h3
        obtain ⟨hrebuild, ex, hex⟩ := hih
        constructor
        · rw [hrebuild, List.reverse_append]
          simp [h4]
        · exact ⟨(splitPath path).2 :: ex, by simp [hex]⟩

theorem buildChain_final :
    ∀ (parts : List String) (parent : Nat) (base : String) (s : WixState),
      parts ≠ [] →
      dlookup (WixConfig.buildChain parent base parts s).2.dirs
          (parts.foldl joinPath base) =
        some (WixConfig.buildChain parent base parts s).1 := by
  intro parts
  induction parts with
  | nil => intro parent base s h; exact absurd rfl h
  | cons part rest ih =>
    intro parent base s _
    cases rest with
    | nil =>
      simp only [WixConfig.buildChain, List.foldl_cons, List.foldl_nil]
      exact dlookup_dinsert_self _ _ _
    | cons p2 r2 =>
      rw [List.foldl_cons]
      exact ih
        (xml_append parent "Directory"
          [("Id", WixConfig.directory_id (joinPath base part)), ("Name", part)] s).1
        (joinPath base part)
        { (xml_append parent "Directory"
            [("Id", WixConfig.directory_id (joinPath base part)), ("Name", part)] s).2 with
          dirs := dinsert
            (xml_append parent "Directory"
              [("Id", WixConfig.directory_id (joinPath base part)), ("Name", part)] s).2.dirs
            (joinPath base part)
            (xml_append parent "Directory"
              [("Id", WixConfig.directory_id (joinPath base part)), ("Name", part)] s).1 }
        (by simp)

/-- C5 amended.  For every directory path that is canonical (empty, or
non-empty separator-free segments joined by single backslashes), a
repeated call returns the identical cached node and changes nothing, so
at most one Directory element is ever created for such a path.  The
counterexample below shows the restriction to canonical paths is
needed: the source claim fails for a path whose spelling differs from
its split-and-rejoin normal form. -/
theorem directory_idempotent_canonical (p : String) (s : WixState) (n : Nat)
    (s2 : WixState) (hc : CanonL p.data)
    (h : WixConfig.directory p s = (n, s2)) :
    WixConfig.directory p s2 = (n, s2) := by
  cases hdl : dlookup s.dirs p with
  | some m =>
    have h1 : WixConfig.directory p s = (m, s) := by
      unfold WixConfig.directory WixConfig.findAnchor
      simp only [WixConfig.findAnchorAux, hdl]
      rfl
    rw [h1] at h
    have hn : m = n := congrArg Prod.fst h
    have hs : s = s2 := congrArg Prod.snd h
    subst hn
    subst hs
    exact h1
  | none =>
    by_cases hpe : p = ""
    · subst hpe
      have h1 : WixConfig.directory "" s =
          ((dlookup s.logical "MailpileClient").getD 0, s) := by
        unfold WixConfig.directory WixConfig.findAnchor
        simp only [WixConfig.findAnchorAux, hdl]
        rw [if_pos (by decide : (splitPath "").1 = "")]
        rfl
      rw [h1] at h
      have hn : (dlookup s.logical "MailpileClient").getD 0 = n := congrArg Prod.fst h
      have hs : s = s2 := congrArg Prod.snd h
      subst hs
      rw [← hn]
      exact h1
    · obtain ⟨hfix, hlt, hc1, hjoin⟩ := canon_split p hc hpe
      have hr : WixConfig.findAnchor s p =
          WixConfig.findAnchorAux s p.length (splitPath p).1 [(splitPath p).2] := by
        unfold WixConfig.findAnchor
        simp only [WixConfig.findAnchorAux, hdl, if_neg hfix, List.nil_append]
      obtain ⟨hrebuild, ex, hex⟩ :=
        findAnchorAux_spec s p.length (splitPath p).1 [(splitPath p).2] hlt hc1
      have hre : (WixConfig.findAnchorAux s p.length (splitPath p).1
          [(splitPath p).2]).2.2.reverse.foldl joinPath
          (WixConfig.findAnchorAux s p.length (splitPath p).1 [(splitPath p).2]).2.1 =
          p := by
        rw [hrebuild]
        simp [hjoin]
      have hnonempty : (WixConfig.findAnchorAux s p.length (splitPath p).1
          [(splitPath p).2]).2.2.reverse ≠ [] := by
        rw [hex]
        simp
      have hd1 : WixConfig.directory p s =
          WixConfig.buildChain
            (WixConfig.findAnchorAux s p.length (splitPath p).1 [(splitPath p).2]).1
            (WixConfig.findAnchorAux s p.length (splitPath p).1 [(splitPath p).2]).2.1
            (WixConfig.findAnchorAux s p.length (splitPath p).1 [(splitPath p).2]).2.2.reverse
            s := by
        unfold WixConfig.directory
        rw [hr]
      have hlook := buildChain_final
        (WixConfig.findAnchorAux s p.length (splitPath p).1 [(splitPath p).2]).2.2.reverse
        (WixConfig.findAnchorAux s p.length (splitPath p).1 [(splitPath p).2]).1
        (WixConfig.findAnchorAux s p.length (splitPath p).1 [(splitPath p).2]).2.1
        s hnonempty
      rw [hre] at hlook
      rw [hd1] at h
      rw [h] at hlook
      have hlook2 : dlookup s2.dirs p = some n := hlook
      unfold WixConfig.directory WixConfig.findAnchor
      simp only [WixConfig.findAnchorAux, hlook2]
      rfl

/-- C5 counterexample.  For the path spelled with a forward slash
(equally for doubled backslashes) the claim fails on the code: the
second call with the very same path does not return the node the first
call created, and a second Directory element is created for the same
masked directory path, because the walk-down phase caches the re-joined
backslash spelling while the lookup uses the original spelling. -/
theorem directory_duplicate_node_counterexample :
    (WixConfig.directory "a/b" cexState).1 ≠
      (WixConfig.directory "a/b" (WixConfig.directory "a/b" cexState).2).1 ∧
    (WixConfig.directory "a/b" (WixConfig.directory "a/b" cexState).2).2.nodes.length =
      (WixConfig.directory "a/b" cexState).2.nodes.length + 1 := by
  constructor
  · decide
  · decide

/-- C5 witness: the amended theorem at the concrete canonical path a on
the concrete minimal state. -/
theorem directory_idempotent_canonical_witness :
    WixConfig.directory "a" ((WixConfig.directory "a" cexState).2) =
      ((WixConfig.directory "a" cexState).1, (WixConfig.directory "a" cexState).2) :=
  directory_idempotent_canonical "a" cexState
    (WixConfig.directory "a" cexState).1 (WixConfig.directory "a" cexState).2
    (CanonL.seg ['a'] (by decide) (by decide)) rfl

/-! ## Claim C3: exclusion correctness of the file loop -/

theorem uuid_hit (g : Nat → String) (p : String) (s : WixState) (v : String)
    (h : dlookup s.uuids p = some v) : WixConfig.uuid g p s = (v, s) := by
  simp [WixConfig.uuid, h]

theorem uuid_miss (g : Nat → String) (p : String) (s : WixState)
    (h : dlookup s.uuids p = none) :
    WixConfig.uuid g p s = (g s.freshCtr, { s with
      uuids := dinsert s.uuids p (g s.freshCtr),
      freshCtr := s.freshCtr + 1,
      log := s.log ++ [.warn ("Creating new uuid for " ++ p ++ ": " ++ g s.freshCtr)] }) := by
  simp [WixConfig.uuid, h]

theorem map_tag_set (l : List Elem) :
    ∀ (i : Nat) (e : Elem), e.tag = (l.getD i noElem).tag →
      (l.set i e).map (fun x => x.tag) = l.map (fun x => x.tag) := by
  induction l with
  | nil => intro i e _; simp
  | cons x rest ih =>
    intro i e h
    cases i with
    | zero =>
      simp only [List.getD, List.get?] at h
      simp [List.set, h]
    | succ j =>
      simp only [List.set, List.map_cons]
      rw [ih j e (by simpa [List.getD] using h)]

theorem tags_xml_append (parent : Nat) (tag : String)
    (attrs : List (String × String)) (s : WixState) :
    tags (xml_append parent tag attrs s).2 = tags s ++ [tag] := by
  exact (map_tag_set (s.nodes ++ [Elem.mk tag attrs []]) parent
    { (s.nodes ++ [Elem.mk tag attrs []]).getD parent noElem with
      children := ((s.nodes ++ [Elem.mk tag attrs []]).getD parent noElem).children ++
        [s.nodes.length] } rfl).trans (by simp [tags])

theorem uuid_nodes (g : Nat → String) (p : String) (s : WixState) :
    (WixConfig.uuid g p s).2.nodes = s.nodes := by
  unfold WixConfig.uuid
  cases dlookup s.uuids p <;> rfl

theorem buildChain_nodes_tags :
    ∀ (parts : List String) (parent : Nat) (base : String) (s : WixState),
      tags (WixConfig.buildChain parent base parts s).2 =
        tags s ++ List.replicate parts.length "Directory" := by
  intro parts
  induction parts with
  | nil => intro parent base s; simp [WixConfig.buildChain]
  | cons part rest ih =>
    intro parent base s
    unfold WixConfig.buildChain
    rw [ih]
    have : tags { (xml_append parent "Directory"
        [("Id", WixConfig.directory_id (joinPath base part)), ("Name", part)] s).2 with
        dirs := dinsert (xml_append parent "Directory"
          [("Id", WixConfig.directory_id (joinPath base part)), ("Name", part)] s).2.dirs
          (joinPath base part)
          (xml_append parent "Directory"
            [("Id", WixConfig.directory_id (joinPath base part)), ("Name", part)] s).1 } =
        tags (xml_append parent "Directory"
          [("Id", WixConfig.directory_id (joinPath base part)), ("Name", part)] s).2 := rfl
    rw [this, tags_xml_append]
    simp [List.replicate_succ]

theorem tags_directory (p : String) (s : WixState) :
    ∃ k, tags (WixConfig.directory p s).2 = tags s ++ List.replicate k "Directory" := by
  unfold WixConfig.directory
  exact ⟨_, buildChain_nodes_tags _ _ _ s⟩

theorem buildChain_freshCtr :
    ∀ (parts : List String) (parent : Nat) (base : String) (s : WixState),
      (WixConfig.buildChain parent base parts s).2.freshCtr = s.freshCtr := by
  intro parts
  induction parts with
  | nil => intro parent base s; rfl
  | cons part rest ih =>
    intro parent base s
    unfold WixConfig.buildChain
    rw [ih]
    rfl

theorem directory_freshCtr (p : String) (s : WixState) :
    (WixConfig.directory p s).2.freshCtr = s.freshCtr := by
  unfold WixConfig.directory
  rw [buildChain_freshCtr]

theorem tags_uuid (g : Nat → String) (p : String) (s : WixState) :
    tags (WixConfig.uuid g p s).2 = tags s := by
  unfold tags
  rw [uuid_nodes]

theorem tags_mk (nodes : List Elem) (dirs logical : List (String × Nat))
    (uuids : List (String × String)) (freshCtr : Nat) (log : List LogEntry)
    (feature menuComponent : Nat) :
    tags ⟨nodes, dirs, logical, uuids, freshCtr, log, feature, menuComponent⟩ =
      nodes.map (fun e => e.tag) := rfl

theorem map_tag_xml_append (parent : Nat) (tag : String)
    (attrs : List (String × String)) (s : WixState) :
    ((xml_append parent tag attrs s).2.nodes).map (fun e : Elem => e.tag) =
      tags s ++ [tag] :=
  tags_xml_append parent tag attrs s

/-- C3.  For a file of the walk whose masked path matches some
exclusion pattern, the file loop body only records the diagnostic:
no element, no registry entry, no directory node is produced.  For a
file matching none, exactly one Component, one File and one
ComponentRef element are appended (plus the directory chain and the
optional shortcut), and the registry holds exactly one entry for the
masked path: the pre-existing one if there was one (registry unchanged),
a single fresh one otherwise. -/
theorem scan_file_exclusion (g : Nat → String) (mask : String) (ignore : List Rgx)
    (shortcuts : List (String × List (String × String))) (parent fname : String)
    (s : WixState) :
    (WixConfig.ignore_path ignore (WixConfig.mask_path mask (joinPath parent fname)) = true →
      WixConfig.processFile g mask ignore shortcuts parent fname s =
        { s with log := s.log ++ [LogEntry.info ("Ignoring " ++
          WixConfig.mask_path mask (joinPath parent fname))] }) ∧
    (WixConfig.ignore_path ignore (WixConfig.mask_path mask (joinPath parent fname)) = false →
      ∃ k st guid,
        tags (WixConfig.processFile g mask ignore shortcuts parent fname s) =
          tags s ++ List.replicate k "Directory" ++ ["Component", "File"] ++ st ++
            ["ComponentRef"] ∧
        (st = [] ∨ st = ["Shortcut"]) ∧
        dlookup (WixConfig.processFile g mask ignore shortcuts parent fname s).uuids
          (WixConfig.mask_path mask (joinPath parent fname)) = some guid ∧
        (dlookup s.uuids (WixConfig.mask_path mask (joinPath parent fname)) = none →
          (WixConfig.processFile g mask ignore shortcuts parent fname s).uuids =
            dinsert s.uuids (WixConfig.mask_path mask (joinPath parent fname))
              (g s.freshCtr)) ∧
        (∀ v, dlookup s.uuids (WixConfig.mask_path mask (joinPath parent fname)) = some v →
          (WixConfig.processFile g mask ignore shortcuts parent fname s).uuids =
            s.uuids)) := by
  constructor
  · intro hig
    simp only [WixConfig.processFile]
    rw [if_pos hig]
  · intro hig
    simp only [WixConfig.processFile]
    rw [if_neg (by simp [hig])]
    obtain ⟨k, hk⟩ := tags_directory (WixConfig.mask_path mask parent)
      { s with log := s.log ++ [LogEntry.debug ("Processing file " ++
        WixConfig.mask_path mask (joinPath parent fname))] }
    have hs2u := directory_uuids (WixConfig.mask_path mask parent)
      { s with log := s.log ++ [LogEntry.debug ("Processing file " ++
        WixConfig.mask_path mask (joinPath parent fname))] }
    have hs2f := directory_freshCtr (WixConfig.mask_path mask parent)
      { s with log := s.log ++ [LogEntry.debug ("Processing file " ++
        WixConfig.mask_path mask (joinPath parent fname))] }
    have hsu : ({ s with log := s.log ++ [LogEntry.debug ("Processing file " ++
        WixConfig.mask_path mask (joinPath parent fname))] } : WixState).uuids =
        s.uuids := rfl
    have hsf : ({ s with log := s.log ++ [LogEntry.debug ("Processing file " ++
        WixConfig.mask_path mask (joinPath parent fname))] } : WixState).freshCtr =
        s.freshCtr := rfl
    have hst : tags { s with log := s.log ++ [LogEntry.debug ("Processing file " ++
        WixConfig.mask_path mask (joinPath parent fname))] } = tags s := rfl
    rw [hsu] at hs2u
    rw [hsf] at hs2f
    rw [hst] at hk
    generalize hR : WixConfig.directory (WixConfig.mask_path mask parent)
      { s with log := s.log ++ [LogEntry.debug ("Processing file " ++
        WixConfig.mask_path mask (joinPath parent fname))] } = R
    rw [hR] at hk hs2u hs2f
    have hk2 : List.map (fun e : Elem => e.tag) R.2.nodes =
        tags s ++ List.replicate k "Directory" := hk
    cases hu : dlookup s.uuids (WixConfig.mask_path mask (joinPath parent fname)) with
    | some v =>
      have huuid : WixConfig.uuid g (WixConfig.mask_path mask (joinPath parent fname))
          R.2 = (v, R.2) :=
        uuid_hit g _ R.2 v (by rw [hs2u]; exact hu)
      rw [huuid]
      cases hsc : dlookup shortcuts (WixConfig.mask_path mask (joinPath parent fname)) with
      | some sc =>
        refine ⟨k, ["Shortcut"], v, ?_, Or.inr rfl, ?_, ?_, ?_⟩
        · simp only [tags_mk, map_tag_xml_append, tags_xml_append, hk, hk2]
          simp
        · simp [xml_append_uuids, hs2u, hu]
        · intro hnone
          simp [hu] at hnone
        · intro v2 _
          simp [xml_append_uuids, hs2u]
      | none =>
        refine ⟨k, [], v, ?_, Or.inl rfl, ?_, ?_, ?_⟩
        · simp only [tags_mk, map_tag_xml_append, tags_xml_append, hk, hk2]
          simp
        · simp [xml_append_uuids, hs2u, hu]
        · intro hnone
          simp [hu] at hnone
        · intro v2 _
          simp [xml_append_uuids, hs2u]
    | none =>
      have huuid : WixConfig.uuid g (WixConfig.mask_path mask (joinPath parent fname))
          R.2 = (g R.2.freshCtr, { R.2 with
            uuids := dinsert R.2.uuids
              (WixConfig.mask_path mask (joinPath parent fname)) (g R.2.freshCtr),
            freshCtr := R.2.freshCtr + 1,
            log := R.2.log ++ [.warn ("Creating new uuid for " ++
              WixConfig.mask_path mask (joinPath parent fname) ++ ": " ++
              g R.2.freshCtr)] }) :=
        uuid_miss g _ R.2 (by rw [hs2u]; exact hu)
      rw [huuid]
      cases hsc : dlookup shortcuts (WixConfig.mask_path mask (joinPath parent fname)) with
      | some sc =>
        refine ⟨k, ["Shortcut"], g s.freshCtr, ?_, Or.inr rfl, ?_, ?_, ?_⟩
        · simp only [tags_mk, map_tag_xml_append, tags_xml_append, hk, hk2]
          simp
        · simp [xml_append_uuids, hs2u, hs2f, dlookup_dinsert_self]
        · intro _
          simp [xml_append_uuids, hs2u, hs2f]
        · intro v2 hv2
          exact Option.noConfusion hv2
      | none =>
        refine ⟨k, [], g s.freshCtr, ?_, Or.inl rfl, ?_, ?_, ?_⟩
        · simp only [tags_mk, map_tag_xml_append, tags_xml_append, hk, hk2]
          simp
        · simp [xml_append_uuids, hs2u, hs2f, dlookup_dinsert_self]
        · intro _
          simp [xml_append_uuids, hs2u, hs2f]
        · intro v2 hv2
          exact Option.noConfusion hv2

/-! ## Claim C8: shortcut attachment to the fixed menu component -/

theorem getD_set_ne {α : Type} (d e : α) :
    ∀ (l : List α) (i j : Nat), i ≠ j → (l.set i e).getD j d = l.getD j d := by
  intro l
  induction l with
  | nil => intro i j _; simp
  | cons x rest ih =>
    intro i j hne
    cases i with
    | zero =>
      cases j with
      | zero => exact absurd rfl hne
      | succ j2 => simp [List.set, List.getD]
    | succ i2 =>
      cases j with
      | zero => simp [List.set, List.getD]
      | succ j2 => simpa [List.set, List.getD] using ih i2 j2 (by omega)

theorem getD_set_self {α : Type} (d e : α) :
    ∀ (l : List α) (i : Nat), i < l.length → (l.set i e).getD i d = e := by
  intro l
  induction l with
  | nil => intro i h; simp at h
  | cons x rest ih =>
    intro i h
    cases i with
    | zero => simp [List.set, List.getD]
    | succ i2 => simpa [List.set, List.getD] using ih i2 (by simpa using Nat.lt_of_succ_lt_succ h)

theorem getD_append_left {α : Type} (d : α) :
    ∀ (l l2 : List α) (j : Nat), j < l.length → (l ++ l2).getD j d = l.getD j d := by
  intro l
  induction l with
  | nil => intro l2 j h; simp at h
  | cons x rest ih =>
    intro l2 j h
    cases j with
    | zero => simp [List.getD]
    | succ j2 => simpa [List.getD] using ih l2 j2 (by simpa using Nat.lt_of_succ_lt_succ h)

theorem getD_append_len {α : Type} (d x : α) :
    ∀ (l : List α), (l ++ [x]).getD l.length d = x := by
  intro l
  induction l with
  | nil => rfl
  | cons y rest ih => simpa [List.getD] using ih

theorem nodes_length_xml_append (parent : Nat) (tag : String)
    (attrs : List (String × String)) (s : WixState) :
    (xml_append parent tag attrs s).2.nodes.length = s.nodes.length + 1 := by
  simp [xml_append]

theorem view_xml_append (parent : Nat) (tag : String) (attrs : List (String × String))
    (s : WixState) (j : Nat) (hj : j < s.nodes.length) :
    ((xml_append parent tag attrs s).2.nodes.getD j noElem).tag =
      (s.nodes.getD j noElem).tag ∧
    ((xml_append parent tag attrs s).2.nodes.getD j noElem).attrs =
      (s.nodes.getD j noElem).attrs := by
  simp only [xml_append]
  by_cases hp : parent = j
  · subst hp
    rw [getD_set_self _ _ _ _ (by simp; omega)]
    constructor
    · show ((s.nodes ++ [Elem.mk tag attrs []]).getD parent noElem).tag = _
      rw [getD_append_left _ _ _ _ hj]
    · show ((s.nodes ++ [Elem.mk tag attrs []]).getD parent noElem).attrs = _
      rw [getD_append_left _ _ _ _ hj]
  · rw [getD_set_ne _ _ _ _ _ hp, getD_append_left _ _ _ _ hj]
    exact ⟨rfl, rfl⟩

theorem view_xml_append_new (parent : Nat) (tag : String)
    (attrs : List (String × String)) (s : WixState) (hp : parent < s.nodes.length) :
    ((xml_append parent tag attrs s).2.nodes.getD s.nodes.length noElem).tag = tag ∧
    ((xml_append parent tag attrs s).2.nodes.getD s.nodes.length noElem).attrs = attrs := by
  simp only [xml_append]
  rw [getD_set_ne _ _ _ _ _ (by omega), getD_append_len]
  exact ⟨rfl, rfl⟩

theorem children_xml_append (parent : Nat) (tag : String)
    (attrs : List (String × String)) (s : WixState) (m : Nat)
    (hm : m < s.nodes.length) :
    ((xml_append parent tag attrs s).2.nodes.getD m noElem).children =
      if m = parent then (s.nodes.getD m noElem).children ++ [s.nodes.length]
      else (s.nodes.getD m noElem).children := by
  simp only [xml_append]
  by_cases hp : m = parent
  · subst hp
    rw [if_pos rfl, getD_set_self _ _ _ _ (by simp; omega)]
    show ((s.nodes ++ [Elem.mk tag attrs []]).getD m noElem).children ++ _ = _
    rw [getD_append_left _ _ _ _ hm]
  · rw [if_neg hp, getD_set_ne _ _ _ _ _ (fun h => hp h.symm),
      getD_append_left _ _ _ _ hm]

theorem taggedChildAttrs_xml_append (parent : Nat) (tag : String)
    (attrs : List (String × String)) (s : WixState) (m : Nat) (t : String)
    (hm : m < s.nodes.length)
    (hch : ∀ c ∈ (s.nodes.getD m noElem).children, c < s.nodes.length) :
    taggedChildAttrs (xml_append parent tag attrs s).2 m t =
      taggedChildAttrs s m t ++
        (if m = parent ∧ tag = t then [attrs] else []) := by
  unfold taggedChildAttrs
  rw [children_xml_append _ _ _ _ _ hm]
  by_cases hp : m = parent
  · rw [if_pos hp]
    rw [List.map_append, List.filter_append, List.map_append]
    congr 1
    · congr 1
      congr 1
      exact List.map_congr_left (fun c hc =>
        by rw [(view_xml_append parent tag attrs s c (hch c hc)).1,
              (view_xml_append parent tag attrs s c (hch c hc)).2])
    · rw [List.map_singleton,
        (view_xml_append_new parent tag attrs s (hp ▸ hm)).1,
        (view_xml_append_new parent tag attrs s (hp ▸ hm)).2]
      by_cases ht : tag = t
      · simp [ht, hp]
      · simp [ht, hp]
  · rw [if_neg hp]
    rw [if_neg (fun h => hp h.1)]
    rw [List.append_nil]
    congr 1
    congr 1
    exact List.map_congr_left (fun c hc =>
      by rw [(view_xml_append parent tag attrs s c (hch c hc)).1,
            (view_xml_append parent tag attrs s c (hch c hc)).2])

theorem children_valid_xml_append (parent : Nat) (tag : String)
    (attrs : List (String × String)) (s : WixState) (m : Nat)
    (hm : m < s.nodes.length)
    (hch : ∀ c ∈ (s.nodes.getD m noElem).children, c < s.nodes.length) :
    ∀ c ∈ ((xml_append parent tag attrs s).2.nodes.getD m noElem).children,
      c < (xml_append parent tag attrs s).2.nodes.length := by
  rw [children_xml_append _ _ _ _ _ hm, nodes_length_xml_append]
  by_cases hp : m = parent
  · rw [if_pos hp]
    intro c hc
    rcases List.mem_append.mp hc with h | h
    · exact Nat.lt_succ_of_lt (hch c h)
    · simp only [List.mem_singleton] at h
      omega
  · rw [if_neg hp]
    intro c hc
    exact Nat.lt_succ_of_lt (hch c hc)

theorem taggedChildAttrs_uuid (g : Nat → String) (p : String) (s : WixState)
    (m : Nat) (t : String) :
    taggedChildAttrs (WixConfig.uuid g p s).2 m t = taggedChildAttrs s m t := by
  unfold taggedChildAttrs
  rw [uuid_nodes]

theorem taggedChildAttrs_buildChain :
    ∀ (parts : List String) (parent : Nat) (base : String) (s : WixState) (m : Nat),
      m < s.nodes.length →
      (∀ c ∈ (s.nodes.getD m noElem).children, c < s.nodes.length) →
      taggedChildAttrs (WixConfig.buildChain parent base parts s).2 m "Shortcut" =
        taggedChildAttrs s m "Shortcut" ∧
      m < (WixConfig.buildChain parent base parts s).2.nodes.length ∧
      ∀ c ∈ ((WixConfig.buildChain parent base parts s).2.nodes.getD m noElem).children,
        c < (WixConfig.buildChain parent base parts s).2.nodes.length := by
  intro parts
  induction parts with
  | nil =>
    intro parent base s m hm hch
    exact ⟨rfl, hm, hch⟩
  | cons part rest ih =>
    intro parent base s m hm hch
    have hstep := taggedChildAttrs_xml_append parent "Directory"
      [("Id", WixConfig.directory_id (joinPath base part)), ("Name", part)] s m
      "Shortcut" hm hch
    rw [if_neg (by simp)] at hstep
    rw [List.append_nil] at hstep
    have hm2 : m < (xml_append parent "Directory"
        [("Id", WixConfig.directory_id (joinPath base part)), ("Name", part)] s).2.nodes.length := by
      rw [nodes_length_xml_append]
      omega
    have hch2 := children_valid_xml_append parent "Directory"
      [("Id", WixConfig.directory_id (joinPath base part)), ("Name", part)] s m hm hch
    obtain ⟨h1, h2, h3⟩ := ih
      (xml_append parent "Directory"
        [("Id", WixConfig.directory_id (joinPath base part)), ("Name", part)] s).1
      (joinPath base part)
      { (xml_append parent "Directory"
          [("Id", WixConfig.directory_id (joinPath base part)), ("Name", part)] s).2 with
        dirs := dinsert (xml_append parent "Directory"
            [("Id", WixConfig.directory_id (joinPath base part)), ("Name", part)] s).2.dirs
          (joinPath base part)
          (xml_append parent "Directory"
            [("Id", WixConfig.directory_id (joinPath base part)), ("Name", part)] s).1 }
      m hm2 hch2
    exact ⟨h1.trans hstep, h2, h3⟩

theorem taggedChildAttrs_directory (p : String) (s : WixState) (m : Nat)
    (hm : m < s.nodes.length)
    (hch : ∀ c ∈ (s.nodes.getD m noElem).children, c < s.nodes.length) :
    taggedChildAttrs (WixConfig.directory p s).2 m "Shortcut" =
      taggedChildAttrs s m "Shortcut" ∧
    m < (WixConfig.directory p s).2.nodes.length ∧
    ∀ c ∈ ((WixConfig.directory p s).2.nodes.getD m noElem).children,
      c < (WixConfig.directory p s).2.nodes.length := by
  unfold WixConfig.directory
  exact taggedChildAttrs_buildChain _ _ _ s m hm hch

theorem buildChain_menuComponent :
    ∀ (parts : List String) (parent : Nat) (base : String) (s : WixState),
      (WixConfig.buildChain parent base parts s).2.menuComponent = s.menuComponent := by
  intro parts
  induction parts with
  | nil => intro parent base s; rfl
  | cons part rest ih =>
    intro parent base s
    unfold WixConfig.buildChain
    rw [ih]
    rfl

theorem directory_menuComponent (p : String) (s : WixState) :
    (WixConfig.directory p s).2.menuComponent = s.menuComponent := by
  unfold WixConfig.directory
  rw [buildChain_menuComponent]

theorem uuid_menuComponent (g : Nat → String) (p : String) (s : WixState) :
    (WixConfig.uuid g p s).2.menuComponent = s.menuComponent := by
  unfold WixConfig.uuid
  cases dlookup s.uuids p <;> rfl

theorem xml_append_menuComponent (parent : Nat) (tag : String)
    (attrs : List (String × String)) (s : WixState) :
    (xml_append parent tag attrs s).2.menuComponent = s.menuComponent := rfl

/-- C8.  For a non-excluded file whose masked path is a key of the
shortcuts map, the file loop appends exactly one Shortcut child to the
fixed menu component, carrying Target equal to the bracketed File
identifier of the masked path followed by the caller-supplied
attributes; a non-excluded file whose masked path is not a key appends
no Shortcut child.  The menu component index must denote a store node
with in-range children (true of every state the generator builds). -/
theorem scan_file_shortcut (g : Nat → String) (mask : String) (ignore : List Rgx)
    (shortcuts : List (String × List (String × String))) (parent fname : String)
    (s : WixState)
    (hm : s.menuComponent < s.nodes.length)
    (hch : ∀ c ∈ (s.nodes.getD s.menuComponent noElem).children, c < s.nodes.length)
    (hig : WixConfig.ignore_path ignore
      (WixConfig.mask_path mask (joinPath parent fname)) = false) :
    (∀ sc, dlookup shortcuts (WixConfig.mask_path mask (joinPath parent fname)) = some sc →
      taggedChildAttrs (WixConfig.processFile g mask ignore shortcuts parent fname s)
          s.menuComponent "Shortcut" =
        taggedChildAttrs s s.menuComponent "Shortcut" ++
          [("Target", "[#" ++ WixConfig.file_id
            (WixConfig.mask_path mask (joinPath parent fname)) ++ "]") :: sc]) ∧
    (dlookup shortcuts (WixConfig.mask_path mask (joinPath parent fname)) = none →
      taggedChildAttrs (WixConfig.processFile g mask ignore shortcuts parent fname s)
          s.menuComponent "Shortcut" =
        taggedChildAttrs s s.menuComponent "Shortcut") := by
  simp only [WixConfig.processFile]
  rw [if_neg (by simp [hig])]
  have hds := taggedChildAttrs_directory (WixConfig.mask_path mask parent)
    { s with log := s.log ++ [LogEntry.debug ("Processing file " ++
      WixConfig.mask_path mask (joinPath parent fname))] } s.menuComponent hm hch
  generalize hR : WixConfig.directory (WixConfig.mask_path mask parent)
    { s with log := s.log ++ [LogEntry.debug ("Processing file " ++
      WixConfig.mask_path mask (joinPath parent fname))] } = R
  rw [hR] at hds
  obtain ⟨htagR, hmR, hchR⟩ := hds
  have htagR2 : taggedChildAttrs R.2 s.menuComponent "Shortcut" =
      taggedChildAttrs s s.menuComponent "Shortcut" := htagR
  have hRmc : R.2.menuComponent = s.menuComponent := by
    rw [← hR, directory_menuComponent]
  have hUnodes : (WixConfig.uuid g (WixConfig.mask_path mask (joinPath parent fname))
      R.2).2.nodes = R.2.nodes := uuid_nodes _ _ _
  generalize hU : WixConfig.uuid g (WixConfig.mask_path mask (joinPath parent fname))
    R.2 = U
  rw [hU] at hUnodes
  have hmU : s.menuComponent < U.2.nodes.length := by rw [hUnodes]; exact hmR
  have hchU : ∀ c ∈ (U.2.nodes.getD s.menuComponent noElem).children,
      c < U.2.nodes.length := by rw [hUnodes]; exact hchR
  have htagU : taggedChildAttrs U.2 s.menuComponent "Shortcut" =
      taggedChildAttrs s s.menuComponent "Shortcut" := by
    unfold taggedChildAttrs
    rw [hUnodes]
    exact htagR2
  have hUmc : U.2.menuComponent = s.menuComponent := by
    rw [← hU, uuid_menuComponent]
    exact hRmc
  -- the Component append
  have htag4 := taggedChildAttrs_xml_append R.1 "Component"
    [("Id", WixConfig.component_id (WixConfig.mask_path mask (joinPath parent fname))),
     ("Guid", U.1)] U.2 s.menuComponent "Shortcut" hmU hchU
  rw [if_neg (by simp), List.append_nil, htagU] at htag4
  have hm4 : s.menuComponent < (xml_append R.1 "Component"
      [("Id", WixConfig.component_id (WixConfig.mask_path mask (joinPath parent fname))),
       ("Guid", U.1)] U.2).2.nodes.length := by
    rw [nodes_length_xml_append]
    omega
  have hch4 := children_valid_xml_append R.1 "Component"
    [("Id", WixConfig.component_id (WixConfig.mask_path mask (joinPath parent fname))),
     ("Guid", U.1)] U.2 s.menuComponent hmU hchU
  -- the File append
  have htag5 := taggedChildAttrs_xml_append
    (xml_append R.1 "Component"
      [("Id", WixConfig.component_id (WixConfig.mask_path mask (joinPath parent fname))),
       ("Guid", U.1)] U.2).1 "File"
    [("Id", WixConfig.file_id (WixConfig.mask_path mask (joinPath parent fname))),
     ("Name", fname), ("DiskId", "1"), ("Source", joinPath parent fname),
     ("KeyPath", "yes")]
    (xml_append R.1 "Component"
      [("Id", WixConfig.component_id (WixConfig.mask_path mask (joinPath parent fname))),
       ("Guid", U.1)] U.2).2 s.menuComponent "Shortcut" hm4 hch4
  rw [if_neg (by simp), List.append_nil, htag4] at htag5
  have hm5 : s.menuComponent < (xml_append
      (xml_append R.1 "Component"
        [("Id", WixConfig.component_id (WixConfig.mask_path mask (joinPath parent fname))),
         ("Guid", U.1)] U.2).1 "File"
      [("Id", WixConfig.file_id (WixConfig.mask_path mask (joinPath parent fname))),
       ("Name", fname), ("DiskId", "1"), ("Source", joinPath parent fname),
       ("KeyPath", "yes")]
      (xml_append R.1 "Component"
        [("Id", WixConfig.component_id (WixConfig.mask_path mask (joinPath parent fname))),
         ("Guid", U.1)] U.2).2).2.nodes.length := by
    rw [nodes_length_xml_append]
    omega
  have hch5 := children_valid_xml_append
    (xml_append R.1 "Component"
      [("Id", WixConfig.component_id (WixConfig.mask_path mask (joinPath parent fname))),
       ("Guid", U.1)] U.2).1 "File"
    [("Id", WixConfig.file_id (WixConfig.mask_path mask (joinPath parent fname))),
     ("Name", fname), ("DiskId", "1"), ("Source", joinPath parent fname),
     ("KeyPath", "yes")]
    (xml_append R.1 "Component"
      [("Id", WixConfig.component_id (WixConfig.mask_path mask (joinPath parent fname))),
       ("Guid", U.1)] U.2).2 s.menuComponent hm4 hch4
  generalize hS5 : xml_append
    (xml_append R.1 "Component"
      [("Id", WixConfig.component_id (WixConfig.mask_path mask (joinPath parent fname))),
       ("Guid", U.1)] U.2).1 "File"
    [("Id", WixConfig.file_id (WixConfig.mask_path mask (joinPath parent fname))),
     ("Name", fname), ("DiskId", "1"), ("Source", joinPath parent fname),
     ("KeyPath", "yes")]
    (xml_append R.1 "Component"
      [("Id", WixConfig.component_id (WixConfig.mask_path mask (joinPath parent fname))),
       ("Guid", U.1)] U.2).2 = S5 at htag5 hm5 hch5 ⊢
  have hmc5 : S5.2.menuComponent = s.menuComponent := by
    rw [← hS5, xml_append_menuComponent, xml_append_menuComponent]
    exact hUmc
  constructor
  · intro sc hsc
    rw [hsc]
    have htag6 := taggedChildAttrs_xml_append S5.2.menuComponent "Shortcut"
      (("Target", "[#" ++ WixConfig.file_id
        (WixConfig.mask_path mask (joinPath parent fname)) ++ "]") :: sc)
      S5.2 s.menuComponent "Shortcut" hm5 hch5
    rw [if_pos ⟨hmc5.symm, rfl⟩, htag5] at htag6
    have hm6 : s.menuComponent < (xml_append S5.2.menuComponent "Shortcut"
        (("Target", "[#" ++ WixConfig.file_id
          (WixConfig.mask_path mask (joinPath parent fname)) ++ "]") :: sc)
        S5.2).2.nodes.length := by
      rw [nodes_length_xml_append]
      omega
    have hch6 := children_valid_xml_append S5.2.menuComponent "Shortcut"
      (("Target", "[#" ++ WixConfig.file_id
        (WixConfig.mask_path mask (joinPath parent fname)) ++ "]") :: sc)
      S5.2 s.menuComponent hm5 hch5
    have htag7 := taggedChildAttrs_xml_append
      ({ (xml_append S5.2.menuComponent "Shortcut"
          (("Target", "[#" ++ WixConfig.file_id
            (WixConfig.mask_path mask (joinPath parent fname)) ++ "]") :: sc)
          S5.2).2 with
        log := (xml_append S5.2.menuComponent "Shortcut"
          (("Target", "[#" ++ WixConfig.file_id
            (WixConfig.mask_path mask (joinPath parent fname)) ++ "]") :: sc)
          S5.2).2.log ++ [LogEntry.info ("Created shortcut for " ++
            WixConfig.mask_path mask (joinPath parent fname))] } : WixState).feature
      "ComponentRef"
      [("Id", WixConfig.component_id (WixConfig.mask_path mask (joinPath parent fname)))]
      ({ (xml_append S5.2.menuComponent "Shortcut"
          (("Target", "[#" ++ WixConfig.file_id
            (WixConfig.mask_path mask (joinPath parent fname)) ++ "]") :: sc)
          S5.2).2 with
        log := (xml_append S5.2.menuComponent "Shortcut"
          (("Target", "[#" ++ WixConfig.file_id
            (WixConfig.mask_path mask (joinPath parent fname)) ++ "]") :: sc)
          S5.2).2.log ++ [LogEntry.info ("Created shortcut for " ++
            WixConfig.mask_path mask (joinPath parent fname))] } : WixState)
      s.menuComponent "Shortcut" hm6 hch6
    rw [if_neg (by simp), List.append_nil] at htag7
    refine htag7.trans ?_
    exact htag6
  · intro hsc
    rw [hsc]
    have htag7 := taggedChildAttrs_xml_append S5.2.feature "ComponentRef"
      [("Id", WixConfig.component_id (WixConfig.mask_path mask (joinPath parent fname)))]
      S5.2 s.menuComponent "Shortcut" hm5 hch5
    rw [if_neg (by simp), List.append_nil, htag5] at htag7
    exact htag7

/-- C3 witness: a concrete excluded file produces only the diagnostic,
and a concrete non-excluded file produces the elements and the registry
entry. -/
theorem scan_file_exclusion_witness :
    (WixConfig.processFile gSupply "m" [Rgx.dot] [] "m" "f.txt" cexState =
      { cexState with log := cexState.log ++ [LogEntry.info ("Ignoring " ++
        WixConfig.mask_path "m" (joinPath "m" "f.txt"))] }) ∧
    (∃ k st guid,
      tags (WixConfig.processFile gSupply "m" [] [] "m" "f.txt" cexState) =
        tags cexState ++ List.replicate k "Directory" ++ ["Component", "File"] ++ st ++
          ["ComponentRef"] ∧
      (st = [] ∨ st = ["Shortcut"]) ∧
      dlookup (WixConfig.processFile gSupply "m" [] [] "m" "f.txt" cexState).uuids
        (WixConfig.mask_path "m" (joinPath "m" "f.txt")) = some guid ∧
      (dlookup cexState.uuids (WixConfig.mask_path "m" (joinPath "m" "f.txt")) = none →
        (WixConfig.processFile gSupply "m" [] [] "m" "f.txt" cexState).uuids =
          dinsert cexState.uuids (WixConfig.mask_path "m" (joinPath "m" "f.txt"))
            (gSupply cexState.freshCtr)) ∧
      (∀ v, dlookup cexState.uuids
          (WixConfig.mask_path "m" (joinPath "m" "f.txt")) = some v →
        (WixConfig.processFile gSupply "m" [] [] "m" "f.txt" cexState).uuids =
          cexState.uuids)) :=
  ⟨(scan_file_exclusion gSupply "m" [Rgx.dot] [] "m" "f.txt" cexState).1 (by decide),
   (scan_file_exclusion gSupply "m" [] [] "m" "f.txt" cexState).2 rfl⟩

/-- C8 witness: at a concrete state, a file whose masked path is in the
shortcuts map gains exactly its Shortcut child on the menu component,
and one whose masked path is not in the map gains none. -/
theorem scan_file_shortcut_witness :
    (taggedChildAttrs (WixConfig.processFile gSupply "m" [] [("f.txt", [("Id", "S")])]
        "m" "f.txt" cexState) cexState.menuComponent "Shortcut" =
      taggedChildAttrs cexState cexState.menuComponent "Shortcut" ++
        [("Target", "[#" ++ WixConfig.file_id
          (WixConfig.mask_path "m" (joinPath "m" "f.txt")) ++ "]") :: [("Id", "S")]]) ∧
    (taggedChildAttrs (WixConfig.processFile gSupply "m" [] [] "m" "f.txt" cexState)
        cexState.menuComponent "Shortcut" =
      taggedChildAttrs cexState cexState.menuComponent "Shortcut") :=
  ⟨(scan_file_shortcut gSupply "m" [] [("f.txt", [("Id", "S")])] "m" "f.txt" cexState
      (by decide) (by decide) rfl).1 [("Id", "S")] (by decide),
   (scan_file_shortcut gSupply "m" [] [] "m" "f.txt" cexState
      (by decide) (by decide) rfl).2 rfl⟩

/-- C4 witness: the legality facts at the concrete context Directory
and name x. -/
theorem id_str_legal_witness :
    (∃ c rest, (WixConfig.id_str "Directory" "x").data = c :: rest ∧
      (c.isAlpha = true ∨ c = '_')) ∧
    (∀ c ∈ (WixConfig.id_str "Directory" "x").data,
      c.isAlpha = true ∨ c.isDigit = true ∨ c = '_' ∨ c = '.') ∧
    (WixConfig.id_str "Directory" "x").length ≤ 72 ∧
    WixConfig.directory_id "x" = WixConfig.id_str "Directory" "x" ∧
    WixConfig.component_id "x" = WixConfig.id_str "Component" "x" ∧
    WixConfig.file_id "x" = WixConfig.id_str "File" "x" :=
  id_str_legal "Directory" "x" (Or.inl rfl)
